import Mathlib

/-! `tm deploy`: a shallow embedding of `cmd/deploy.go`

The Go file `vendor/github.com/triggermesh/tm/cmd/deploy.go` assembles Kubernetes / Knative
objects and submits them through three API clients (`core`, `build`, `serving`).

* Go strings are Lean `String`s, Go slices are `List`s, Go maps are association lists
  (`GoMap`), Go pointers that may be `nil` are `Option`s, a Go `error` is `Option Err`
  (`none` is `nil`), and the zero value of every struct is the structure with all defaults.
* The package-level flag variables (`Image`, `Source`, ..., `Namespace`) are the fields of
  `Flags`.
* The API clients and `ioutil.ReadFile` are external to this file; they are the parameter
  `Client`.  Every call the Go code makes on them is appended to `World.trace`.
* Logging (`log.Debugf`, `log.Infof`, `log.Warnf`) has no effect on any value and is left out.
-/

namespace Deploy

/-! ## Data model -/

/-- Go maps `map[string]string`; the `nil` map and the empty map are both `[]`. -/
abbrev GoMap := List (String × String)

/-- Go map assignment `m[k] = v`: an existing entry for `k` is replaced. -/
def GoMap.assign (m : GoMap) (k v : String) : GoMap :=
  (k, v) :: m.filter (fun p => p.1 != k)

/-- Go map read `m[k]` with the presence flag. -/
def GoMap.find (m : GoMap) (k : String) : Option String :=
  List.lookup k m

/-- The keys of a Go map. -/
def GoMap.keys (m : GoMap) : List String :=
  m.map Prod.fst

/-- An error value; `reason` is the `metav1.StatusReason` of an API status error
(empty for any other error). -/
structure Err where
  reason : String := ""
  message : String := ""
  deriving DecidableEq, Repr

/-- Go `k8sErrors.IsNotFound(err)`: the status reason is `NotFound`. -/
def IsNotFound (e : Err) : Bool :=
  e.reason == "NotFound"

/-- Go `corev1.EnvVar`. -/
structure EnvVar where
  Name : String := ""
  Value : String := ""
  deriving DecidableEq, Repr

/-- Go `corev1.VolumeMount`. -/
structure VolumeMount where
  Name : String := ""
  MountPath : String := ""
  deriving DecidableEq, Repr

/-- Go `corev1.Container`, with the fields this file sets. -/
structure Container where
  Name : String := ""
  Image : String := ""
  Args : List String := []
  Env : List EnvVar := []
  VolumeMounts : List VolumeMount := []
  ImagePullPolicy : String := ""
  deriving DecidableEq, Repr

/-- Go `corev1.Volume` whose source is `ConfigMap: &ConfigMapVolumeSource{Name: ...}`. -/
structure Volume where
  Name : String := ""
  ConfigMap : Option String := none
  deriving DecidableEq, Repr

/-- Go `metav1.TypeMeta`. -/
structure TypeMeta where
  Kind : String := ""
  APIVersion : String := ""
  deriving DecidableEq, Repr

/-- Go `metav1.ObjectMeta`, with the fields this file sets; a `metav1.Time` is a `Nat`. -/
structure ObjectMeta where
  Name : String := ""
  Namespace : String := ""
  ResourceVersion : String := ""
  CreationTimestamp : Nat := 0
  Labels : GoMap := []
  Annotations : GoMap := []
  deriving DecidableEq, Repr

/-- Go `buildv1alpha1.GitSourceSpec`. -/
structure GitSourceSpec where
  Url : String := ""
  Revision : String := ""
  deriving DecidableEq, Repr

/-- Go `buildv1alpha1.SourceSpec`. -/
structure SourceSpec where
  Git : Option GitSourceSpec := none
  Custom : Option Container := none
  deriving DecidableEq, Repr

/-- Go `buildv1alpha1.ArgumentSpec`. -/
structure ArgumentSpec where
  Name : String := ""
  Value : String := ""
  deriving DecidableEq, Repr

/-- Go `buildv1alpha1.TemplateInstantiationSpec`. -/
structure TemplateInstantiationSpec where
  Name : String := ""
  Arguments : List ArgumentSpec := []
  deriving DecidableEq, Repr

/-- Go `buildv1alpha1.BuildSpec`. -/
structure BuildSpec where
  Source : Option SourceSpec := none
  Template : Option TemplateInstantiationSpec := none
  deriving DecidableEq, Repr

/-- Go `servingv1alpha1.RevisionSpec`. -/
structure RevisionSpec where
  Container : Container := {}
  deriving DecidableEq, Repr

/-- Go `servingv1alpha1.RevisionTemplateSpec`. -/
structure RevisionTemplateSpec where
  ObjectMeta : ObjectMeta := {}
  Spec : RevisionSpec := {}
  deriving DecidableEq, Repr

/-- Go `servingv1alpha1.ConfigurationSpec`. -/
structure ConfigurationSpec where
  Build : Option BuildSpec := none
  RevisionTemplate : RevisionTemplateSpec := {}
  deriving DecidableEq, Repr

/-- Go `servingv1alpha1.RunLatestType`. -/
structure RunLatestType where
  Configuration : ConfigurationSpec := {}
  deriving DecidableEq, Repr

/-- Go `servingv1alpha1.ServiceSpec`. -/
structure ServiceSpec where
  RunLatest : Option RunLatestType := none
  deriving DecidableEq, Repr

/-- Go `servingv1alpha1.Service`. -/
structure Service where
  TypeMeta : TypeMeta := {}
  ObjectMeta : ObjectMeta := {}
  Spec : ServiceSpec := {}
  deriving DecidableEq, Repr

/-- Go `corev1.ConfigMap`. -/
structure ConfigMap where
  TypeMeta : TypeMeta := {}
  ObjectMeta : ObjectMeta := {}
  Data : GoMap := []
  deriving DecidableEq, Repr

/-- Go `buildv1alpha1.ParameterSpec`. -/
structure ParameterSpec where
  Name : String := ""
  Default : Option String := none
  deriving DecidableEq, Repr

/-- Go `buildv1alpha1.BuildTemplateSpec`. -/
structure BuildTemplateSpec where
  Parameters : List ParameterSpec := []
  Steps : List Container := []
  Volumes : List Volume := []
  deriving DecidableEq, Repr

/-- Go `buildv1alpha1.BuildTemplate`. -/
structure BuildTemplate where
  TypeMeta : TypeMeta := {}
  ObjectMeta : ObjectMeta := {}
  Spec : BuildTemplateSpec := {}
  deriving DecidableEq, Repr

/-- The package-level variables of `cmd` read by `deploy.go` (bound to the command-line
flags), with `Namespace` from the root command. -/
structure Flags where
  Image : String := ""
  Source : String := ""
  URL : String := ""
  PullPolicy : String := "Always"
  Path : String := ""
  Revision : String := "master"
  Env : List String := []
  Labels : List String := []
  Namespace : String := ""
  deriving DecidableEq, Repr

/-- The two readings of the clock made by `DeployService`: `stamp` is
`time.Now().Format("2006-01-02 15:04:05")` (line 103), `created` is `time.Now()` (line 115). -/
structure Clock where
  stamp : String := ""
  created : Nat := 0
  deriving DecidableEq, Repr

/-- Go constant `registry`. -/
def registry : String := "knative-local-registry:5000"

/-- Go variable `df`. -/
def df : String := "/workspace/Dockerfile"

/-- Go `args[0]`.  The command is declared with `cobra.ExactArgs(1)`, so `args` has one
element; on an empty slice the Go code panics, and the theorems below are stated for
`args = n :: rest`. -/
def arg0 (args : List String) : String :=
  args.headD ""

/-! ## Pure builders (`fromImage`, `fromSource`, `fromURL`, `fromFile`) -/

/-- Go `fromImage` (lines 261-277). -/
def fromImage (f : Flags) (args : List String) : ConfigurationSpec :=
  { RevisionTemplate :=
      { ObjectMeta :=
          { Annotations := [("sidecar.istio.io/inject", "true")]
            Name := arg0 args }
        Spec := { Container := { Image := f.Image } } } }

/-- Go `fromSource` (lines 279-312); `fmt.Sprintf("%s/%s-%s-source:latest", a, b, c)` is the
concatenation `a ++ "/" ++ b ++ "-" ++ c ++ "-source:latest"`. -/
def fromSource (f : Flags) (args : List String) : ConfigurationSpec :=
  { Build := some
      { Source := some { Git := some { Url := f.Source, Revision := f.Revision } }
        Template := some
          { Name := "kaniko"
            Arguments :=
              [{ Name := "IMAGE"
                 Value := registry ++ "/" ++ f.Namespace ++ "-" ++ arg0 args ++ "-source:latest" }] } }
    RevisionTemplate :=
      { ObjectMeta :=
          { Annotations := [("sidecar.istio.io/inject", "true")]
            Name := arg0 args }
        Spec :=
          { Container :=
              { Image :=
                  registry ++ "/" ++ f.Namespace ++ "-" ++ arg0 args ++ "-source:latest" } } } }

/-- Go `fromURL` (lines 314-350). -/
def fromURL (f : Flags) (args : List String) : ConfigurationSpec :=
  { Build := some
      { Source := some
          { Custom := some { Image := "registry.hub.docker.com/library/busybox" } }
        Template := some
          { Name := "getandbuild"
            Arguments :=
              [{ Name := "IMAGE"
                 Value := registry ++ "/" ++ f.Namespace ++ "-" ++ arg0 args ++ "-url:latest" },
               { Name := "URL"
                 Value := f.URL }] } }
    RevisionTemplate :=
      { ObjectMeta :=
          { Annotations := [("sidecar.istio.io/inject", "true")]
            Name := arg0 args }
        Spec :=
          { Container :=
              { Image :=
                  registry ++ "/" ++ f.Namespace ++ "-" ++ arg0 args ++ "-url:latest" } } } }

/-- Go `fromFile` (lines 352-388). -/
def fromFile (f : Flags) (args : List String) : ConfigurationSpec :=
  { Build := some
      { Source := some
          { Custom := some { Image := "registry.hub.docker.com/library/busybox" } }
        Template := some
          { Name := "kaniko"
            Arguments :=
              [{ Name := "IMAGE"
                 Value := registry ++ "/" ++ f.Namespace ++ "-" ++ arg0 args ++ "-file:latest" },
               { Name := "DOCKERFILE"
                 Value := "/docker-file/" ++ arg0 args }] } }
    RevisionTemplate :=
      { ObjectMeta :=
          { Name := arg0 args
            Annotations := [("sidecar.istio.io/inject", "true")] }
        Spec :=
          { Container :=
              { Image :=
                  registry ++ "/" ++ f.Namespace ++ "-" ++ arg0 args ++ "-file:latest" } } } }

/-! ## Token parsing (`getLabels`, `getEnv`) -/

/-- A character matched by the regular expression `[:=]`. -/
def isSep (ch : Char) : Bool :=
  ch == ':' || ch == '='

/-- Position of the leftmost match of `[:=]` in the text, if any. -/
def findSep : List Char → Option Nat
  | [] => none
  | ch :: rest => if isSep ch then some 0 else (findSep rest).map (· + 1)

/-- Go `regexp.MustCompile("[:=]").Split(s, 2)`.  `Split` returns `[""]` on the empty
string; with no match the whole string is the only piece; otherwise, the limit being 2, the
pieces are the text before the leftmost match and the unsplit remainder after it. -/
def split2 (s : String) : List String :=
  if s.data = [] then [""]
  else
    match findSep s.data with
    | none => [s]
    | some i => [String.mk (s.data.take i), String.mk (s.data.drop (i + 1))]

/-- One iteration of the loop of `getLabels` (lines 418-423): `continue` when `len(t) != 2`,
else `m[t[0]] = t[1]`. -/
def labelStep (m : GoMap) (s : String) : GoMap :=
  match split2 s with
  | [k, v] => m.assign k v
  | _ => m

/-- Go `getLabels` (lines 414-426). -/
def getLabels (slice : List String) : GoMap :=
  slice.foldl labelStep [("created-by", "tm")]

/-- One iteration of the loop of `getEnv` (lines 431-436). -/
def envStep (m : List EnvVar) (s : String) : List EnvVar :=
  match split2 s with
  | [k, v] => m ++ [{ Name := k, Value := v }]
  | _ => m

/-- Go `getEnv` (lines 428-439). -/
def getEnv (slice : List String) : List EnvVar :=
  slice.foldl envStep []

/-! ## The API clients and the world they act on -/

/-- A call made on an external collaborator, with the arguments passed to it. -/
inductive Call where
  | readFile (path : String)
  | cmGet (ns name : String)
  | cmCreate (ns : String) (obj : ConfigMap)
  | cmUpdate (ns : String) (obj : ConfigMap)
  | btGet (ns name : String)
  | btCreate (ns : String) (obj : BuildTemplate)
  | svcGet (ns name : String)
  | svcCreate (ns : String) (obj : Service)
  | svcUpdate (ns : String) (obj : Service)
  deriving DecidableEq, Repr

/-- The external collaborators of `deploy.go`: `ioutil.ReadFile` and the API clients
`core.CoreV1().ConfigMaps(ns)`, `build.BuildV1alpha1().BuildTemplates(ns)` and
`serving.ServingV1alpha1().Services(ns)`.  The cluster keeps each resource kind in a store of
its own (`κ`, `β`, `ς`); a `Get` reads its store, a `Create` or `Update` returns its result
together with the store after the call.  Nothing else is assumed about them: any call may
fail with any error. -/
structure Client (κ β ς : Type) where
  ReadFile : String → Except Err String
  ConfigMapsGet : κ → String → String → Except Err ConfigMap
  ConfigMapsCreate : κ → String → ConfigMap → Except Err ConfigMap × κ
  ConfigMapsUpdate : κ → String → ConfigMap → Except Err ConfigMap × κ
  BuildTemplatesGet : β → String → String → Except Err BuildTemplate
  BuildTemplatesCreate : β → String → BuildTemplate → Except Err BuildTemplate × β
  ServicesGet : ς → String → String → Except Err Service
  ServicesCreate : ς → String → Service → Except Err Service × ς
  ServicesUpdate : ς → String → Service → Except Err Service × ς

/-- The cluster's three stores and the list of calls made so far, oldest first. -/
structure World (κ β ς : Type) where
  cms : κ
  bts : β
  svcs : ς
  trace : List Call := []
  deriving DecidableEq, Repr

/-- Record a call. -/
def World.log {κ β ς : Type} (w : World κ β ς) (call : Call) : World κ β ς :=
  { w with trace := w.trace ++ [call] }

/-- The `error` of a Go result pair `(value, err)`. -/
def errOf {α : Type} : Except Err α → Option Err
  | .ok _ => none
  | .error e => some e

/-! ## Prerequisites (`createConfigMap`, `kanikoBuildTemplate`, `getterBuildTemplate`) -/

/-- The object `newmap` of `createConfigMap` (lines 391-401). -/
def newmap (f : Flags) (data : GoMap) : ConfigMap :=
  { TypeMeta := { Kind := "ConfigMap", APIVersion := "v1" }
    ObjectMeta := { Name := "dockerfile", Namespace := f.Namespace }
    Data := data }

/-- Go assignment `obj.ObjectMeta.ResourceVersion = rv` on a ConfigMap. -/
def ConfigMap.withResourceVersion (m : ConfigMap) (rv : String) : ConfigMap :=
  { m with ObjectMeta := { m.ObjectMeta with ResourceVersion := rv } }

/-- Go assignment `obj.ObjectMeta.ResourceVersion = rv` on a Service. -/
def Service.withResourceVersion (s : Service) (rv : String) : Service :=
  { s with ObjectMeta := { s.ObjectMeta with ResourceVersion := rv } }

/-- Go `createConfigMap` (lines 390-412). -/
def createConfigMap {κ β ς : Type} (c : Client κ β ς) (f : Flags) (data : GoMap)
    (w : World κ β ς) : Option Err × World κ β ς :=
  let w1 := w.log (.cmGet f.Namespace "dockerfile")
  match c.ConfigMapsGet w.cms f.Namespace "dockerfile" with
  | .ok cm =>
    let obj := (newmap f data).withResourceVersion cm.ObjectMeta.ResourceVersion
    let r := c.ConfigMapsUpdate w.cms f.Namespace obj
    (errOf r.1, { w1.log (.cmUpdate f.Namespace obj) with cms := r.2 })
  | .error err =>
    if IsNotFound err then
      let r := c.ConfigMapsCreate w.cms f.Namespace (newmap f data)
      (errOf r.1, { w1.log (.cmCreate f.Namespace (newmap f data)) with cms := r.2 })
    else
      (some err, w1)

/-- The object `bt` of `kanikoBuildTemplate` (lines 157-200). -/
def kanikoTemplate (f : Flags) : BuildTemplate :=
  { TypeMeta := { Kind := "BuildTemplate", APIVersion := "build.knative.dev/v1alpha1" }
    ObjectMeta := { Name := "kaniko", Namespace := f.Namespace }
    Spec :=
      { Parameters := [{ Name := "IMAGE" }, { Name := "DOCKERFILE", Default := some df }]
        Steps :=
          [{ Name := "build-and-push"
             Image := "gcr.io/kaniko-project/executor"
             Args := ["--dockerfile=${DOCKERFILE}", "--destination=${IMAGE}", "--skip-tls-verify"]
             VolumeMounts := [{ Name := "docker-file", MountPath := "/docker-file" }] }]
        Volumes := [{ Name := "docker-file", ConfigMap := some "dockerfile" }] } }

/-- Go `kanikoBuildTemplate` (lines 150-205). -/
def kanikoBuildTemplate {κ β ς : Type} (c : Client κ β ς) (f : Flags) (w : World κ β ς) :
    Option Err × World κ β ς :=
  let w1 := w.log (.btGet f.Namespace "kaniko")
  match c.BuildTemplatesGet w.bts f.Namespace "kaniko" with
  | .ok _ => (none, w1)
  | .error err =>
    if IsNotFound err then
      let r := c.BuildTemplatesCreate w.bts f.Namespace (kanikoTemplate f)
      (errOf r.1, { w1.log (.btCreate f.Namespace (kanikoTemplate f)) with bts := r.2 })
    else
      (some err, w1)

/-- The object `bt` of `getterBuildTemplate` (lines 213-254). -/
def getterTemplate (f : Flags) : BuildTemplate :=
  { TypeMeta := { Kind := "BuildTemplate", APIVersion := "build.knative.dev/v1alpha1" }
    ObjectMeta := { Name := "getandbuild", Namespace := f.Namespace }
    Spec :=
      { Parameters :=
          [{ Name := "URL" }, { Name := "IMAGE" }, { Name := "DOCKERFILE", Default := some df }]
        Steps :=
          [{ Name := "get"
             Image := "index.docker.io/byrnedo/alpine-curl"
             Args := ["-o", "${DOCKERFILE}", "${URL}"] },
           { Name := "build-and-push"
             Image := "gcr.io/kaniko-project/executor"
             Args := ["--dockerfile=${DOCKERFILE}", "--destination=${IMAGE}", "--skip-tls-verify"]
             Env := [{ Name := "DOCKER_CONFIG", Value := "/docker-config" }] }] } }

/-- Go `getterBuildTemplate` (lines 207-259). -/
def getterBuildTemplate {κ β ς : Type} (c : Client κ β ς) (f : Flags) (w : World κ β ς) :
    Option Err × World κ β ς :=
  let w1 := w.log (.btGet f.Namespace "getandbuild")
  match c.BuildTemplatesGet w.bts f.Namespace "getandbuild" with
  | .ok _ => (none, w1)
  | .error err =>
    if IsNotFound err then
      let r := c.BuildTemplatesCreate w.bts f.Namespace (getterTemplate f)
      (errOf r.1, { w1.log (.btCreate f.Namespace (getterTemplate f)) with bts := r.2 })
    else
      (some err, w1)

/-! ## `DeployService` -/

/-- The `switch` of `DeployService` (lines 60-91): the prerequisites of the selected source
and its configuration, or the error on which `DeployService` returns early.  With no source
field set the configuration stays the zero value. -/
def DeployService.configuration {κ β ς : Type} (c : Client κ β ς) (f : Flags)
    (args : List String) (w : World κ β ς) : Except Err ConfigurationSpec × World κ β ς :=
  if f.Image.length ≠ 0 then
    (.ok (fromImage f args), w)
  else if f.Source.length ≠ 0 then
    match createConfigMap c f [] w with
    | (some err, w1) => (.error err, w1)
    | (none, w1) =>
      match kanikoBuildTemplate c f w1 with
      | (some err, w2) => (.error err, w2)
      | (none, w2) => (.ok (fromSource f args), w2)
  else if f.URL.length ≠ 0 then
    match getterBuildTemplate c f w with
    | (some err, w1) => (.error err, w1)
    | (none, w1) => (.ok (fromURL f args), w1)
  else if f.Path.length ≠ 0 then
    match c.ReadFile f.Path with
    | .error err => (.error err, w.log (.readFile f.Path))
    | .ok filebody =>
      match createConfigMap c f (GoMap.assign [] (arg0 args) filebody)
          (w.log (.readFile f.Path)) with
      | (some err, w1) => (.error err, w1)
      | (none, w1) =>
        match kanikoBuildTemplate c f w1 with
        | (some err, w2) => (.error err, w2)
        | (none, w2) => (.ok (fromFile f args), w2)
  else
    (.ok {}, w)

/-- The Service object `s` of `DeployService` (lines 100-125), from the configuration chosen
by the `switch`. -/
def DeployService.service (f : Flags) (t : Clock) (args : List String)
    (configuration : ConfigurationSpec) : Service :=
  let container : Container :=
    { configuration.RevisionTemplate.Spec.Container with
      ImagePullPolicy := f.PullPolicy
      Env := getEnv f.Env ++ [{ Name := "timestamp", Value := t.stamp }] }
  let configuration : ConfigurationSpec :=
    { configuration with
      RevisionTemplate :=
        { configuration.RevisionTemplate with
          Spec := { configuration.RevisionTemplate.Spec with Container := container } } }
  { TypeMeta := { Kind := "Service", APIVersion := "serving.knative.dev/servingv1alpha1" }
    ObjectMeta :=
      { Name := arg0 args
        Namespace := f.Namespace
        CreationTimestamp := t.created
        Labels := getLabels f.Labels }
    Spec := { RunLatest := some { Configuration := configuration } } }

/-- Go `DeployService` (lines 59-148). -/
def DeployService {κ β ς : Type} (c : Client κ β ς) (f : Flags) (t : Clock)
    (args : List String) (w : World κ β ς) : Option Err × World κ β ς :=
  match DeployService.configuration c f args w with
  | (.error err, w1) => (some err, w1)
  | (.ok configuration, w1) =>
    let s := DeployService.service f t args configuration
    let w2 := w1.log (.svcGet f.Namespace (arg0 args))
    match c.ServicesGet w1.svcs f.Namespace (arg0 args) with
    | .ok service =>
      let s := s.withResourceVersion service.ObjectMeta.ResourceVersion
      let r := c.ServicesUpdate w1.svcs f.Namespace s
      (errOf r.1, { w2.log (.svcUpdate f.Namespace s) with svcs := r.2 })
    | .error err =>
      if IsNotFound err then
        let r := c.ServicesCreate w1.svcs f.Namespace s
        (errOf r.1, { w2.log (.svcCreate f.Namespace s) with svcs := r.2 })
      else
        (some err, w2)

/-! ## A cluster held in memory

Used to evaluate the definitions on concrete inputs. -/

/-- The error of a lookup that finds nothing. -/
def errNotFound : Err := { reason := "NotFound", message := "not found" }

/-- The error of a `Create` of a name that exists. -/
def errAlreadyExists : Err := { reason := "AlreadyExists", message := "already exists" }

/-- The error of a write the caller is not allowed to make. -/
def errForbidden : Err := { reason := "Forbidden", message := "forbidden" }

/-- The error of an `Update` carrying a stale resource version. -/
def errConflict : Err := { reason := "Conflict", message := "object has been modified" }

/-- `Get` on a store of objects identified by namespace and name. -/
def memGet {α : Type} (meta : α → ObjectMeta) (store : List α) (ns name : String) :
    Except Err α :=
  match store.find? (fun o => (meta o).Namespace == ns && (meta o).Name == name) with
  | some o => .ok o
  | none => .error errNotFound

/-- The error of a write whose object names another namespace than the request. -/
def errBadRequest : Err :=
  { reason := "BadRequest", message := "namespace of the object does not match the request" }

/-- `Create`: refused when the object names another namespace or the name exists, else
stored with resource version `"1"`. -/
def memCreate {α : Type} (meta : α → ObjectMeta) (setRV : α → String → α) (store : List α)
    (ns : String) (obj : α) : Except Err α × List α :=
  if (meta obj).Namespace != ns then (.error errBadRequest, store)
  else
    match memGet meta store ns (meta obj).Name with
    | .ok _ => (.error errAlreadyExists, store)
    | .error _ => (.ok (setRV obj "1"), setRV obj "1" :: store)

/-- `Update`: refused when the object names another namespace, the name is absent or the
resource version is stale, else the stored object is replaced and its resource version
advanced. -/
def memUpdate {α : Type} (meta : α → ObjectMeta) (setRV : α → String → α) (store : List α)
    (ns : String) (obj : α) : Except Err α × List α :=
  if (meta obj).Namespace != ns then (.error errBadRequest, store)
  else
    match memGet meta store ns (meta obj).Name with
    | .error err => (.error err, store)
    | .ok old =>
      if (meta old).ResourceVersion == (meta obj).ResourceVersion then
        let new := setRV obj ((meta old).ResourceVersion ++ "1")
        (.ok new,
          new :: store.filter
            (fun o => !((meta o).Namespace == ns && (meta o).Name == (meta obj).Name)))
      else
        (.error errConflict, store)

/-- Go assignment `obj.ObjectMeta.ResourceVersion = rv` on a BuildTemplate. -/
def BuildTemplate.withResourceVersion (b : BuildTemplate) (rv : String) : BuildTemplate :=
  { b with ObjectMeta := { b.ObjectMeta with ResourceVersion := rv } }

/-- `ioutil.ReadFile` over a file system given as a list of paths with their contents. -/
def memReadFile (files : List (String × String)) (path : String) : Except Err String :=
  match files.lookup path with
  | some body => .ok body
  | none => .error { message := "no such file or directory" }

/-- A cluster in memory over the given file system. -/
def memClient (files : List (String × String)) :
    Client (List ConfigMap) (List BuildTemplate) (List Service) where
  ReadFile := memReadFile files
  ConfigMapsGet := memGet ConfigMap.ObjectMeta
  ConfigMapsCreate := memCreate ConfigMap.ObjectMeta ConfigMap.withResourceVersion
  ConfigMapsUpdate := memUpdate ConfigMap.ObjectMeta ConfigMap.withResourceVersion
  BuildTemplatesGet := memGet BuildTemplate.ObjectMeta
  BuildTemplatesCreate := memCreate BuildTemplate.ObjectMeta BuildTemplate.withResourceVersion
  ServicesGet := memGet Service.ObjectMeta
  ServicesCreate := memCreate Service.ObjectMeta Service.withResourceVersion
  ServicesUpdate := memUpdate Service.ObjectMeta Service.withResourceVersion

/-- The same cluster seen by a caller with read-only access: every write is refused. -/
def readOnlyClient (files : List (String × String)) :
    Client (List ConfigMap) (List BuildTemplate) (List Service) where
  ReadFile := memReadFile files
  ConfigMapsGet := memGet ConfigMap.ObjectMeta
  ConfigMapsCreate := fun k _ _ => (.error errForbidden, k)
  ConfigMapsUpdate := fun k _ _ => (.error errForbidden, k)
  BuildTemplatesGet := memGet BuildTemplate.ObjectMeta
  BuildTemplatesCreate := fun k _ _ => (.error errForbidden, k)
  ServicesGet := memGet Service.ObjectMeta
  ServicesCreate := fun k _ _ => (.error errForbidden, k)
  ServicesUpdate := fun k _ _ => (.error errForbidden, k)

/-- The same cluster seen by a caller with no access to Services: every call on the Service
client, reads included, is refused. -/
def deniedClient (files : List (String × String)) :
    Client (List ConfigMap) (List BuildTemplate) (List Service) :=
  { memClient files with
    ServicesGet := fun _ _ _ => .error errForbidden
    ServicesCreate := fun k _ _ => (.error errForbidden, k)
    ServicesUpdate := fun k _ _ => (.error errForbidden, k) }

/-- The empty cluster. -/
def emptyWorld : World (List ConfigMap) (List BuildTemplate) (List Service) :=
  { cms := [], bts := [], svcs := [] }

/-! ## Concrete inputs -/

/-- The flags of `tm -n ns deploy foo --from-image img:tag`. -/
def imageFlags : Flags := { Image := "img:tag", Namespace := "ns" }

/-- The flags of `tm -n ns deploy bar --from-source https://git.example/repo --revision v2`. -/
def gitFlags : Flags :=
  { Source := "https://git.example/repo", Revision := "v2", Namespace := "ns" }

/-- The flags of `tm -n ns deploy foo --from-url https://example.org/Dockerfile`. -/
def urlFlags : Flags := { URL := "https://example.org/Dockerfile", Namespace := "ns" }

/-- The flags of `tm -n ns deploy foo --from-file Dockerfile`. -/
def fileFlags : Flags := { Path := "Dockerfile", Namespace := "ns" }

/-- All four source flags set at once. -/
def allFlags : Flags :=
  { Image := "img:tag", Source := "https://git.example/repo",
    URL := "https://example.org/Dockerfile", Path := "Dockerfile", Namespace := "ns" }

/-- A file system holding `Dockerfile`. -/
def someFiles : List (String × String) := [("Dockerfile", "FROM scratch")]

/-- A cluster where the Service `foo` and the ConfigMap `dockerfile` (holding a Dockerfile
under the key `foo`) exist in the namespace `ns`. -/
def deployedWorld : World (List ConfigMap) (List BuildTemplate) (List Service) :=
  { cms :=
      [{ TypeMeta := { Kind := "ConfigMap", APIVersion := "v1" }
         ObjectMeta := { Name := "dockerfile", Namespace := "ns", ResourceVersion := "1" }
         Data := [("foo", "FROM scratch")] }]
    bts := []
    svcs := [{ ObjectMeta := { Name := "foo", Namespace := "ns", ResourceVersion := "7" } }] }

/-! ## Observations on the objects and on the trace -/

/-- The value of the argument called `name` passed to the build template of a
configuration, if there is one. -/
def ConfigurationSpec.argument (cfg : ConfigurationSpec) (name : String) : Option String :=
  match cfg.Build with
  | none => none
  | some b =>
    match b.Template with
    | none => none
    | some tpl => (tpl.Arguments.find? (fun a => a.Name == name)).map (fun a => a.Value)

/-- The name of the build template of a configuration, if it has a build. -/
def ConfigurationSpec.templateName (cfg : ConfigurationSpec) : Option String :=
  match cfg.Build with
  | none => none
  | some b => b.Template.map (fun tpl => tpl.Name)

/-- The git source of the build of a configuration, if it has one. -/
def ConfigurationSpec.git (cfg : ConfigurationSpec) : Option GitSourceSpec :=
  match cfg.Build with
  | none => none
  | some b =>
    match b.Source with
    | none => none
    | some src => src.Git

/-- The configuration carried by a Service (`Spec.RunLatest.Configuration`). -/
def Service.configuration (s : Service) : ConfigurationSpec :=
  match s.Spec.RunLatest with
  | none => {}
  | some r => r.Configuration

/-- The environment of the container of a Service. -/
def Service.containerEnv (s : Service) : List EnvVar :=
  s.configuration.RevisionTemplate.Spec.Container.Env

/-- The key under which the parsing loops store a token: the first piece when the token
splits in two, none when the token is skipped. -/
def tokenKey (s : String) : Option String :=
  match split2 s with
  | [k, _] => some k
  | _ => none

/-- A call on the ConfigMap client. -/
def Call.isConfigMap : Call → Bool
  | .cmGet _ _ => true
  | .cmCreate _ _ => true
  | .cmUpdate _ _ => true
  | _ => false

/-- What a call acts on: the file system, the ConfigMap `dockerfile`, a BuildTemplate of a
given name, or the Service. -/
inductive Target where
  | file
  | configMap
  | buildTemplate (name : String)
  | service
  deriving DecidableEq, Repr

/-- The target of a call. -/
def Call.target : Call → Target
  | .readFile _ => .file
  | .cmGet _ _ => .configMap
  | .cmCreate _ _ => .configMap
  | .cmUpdate _ _ => .configMap
  | .btGet _ name => .buildTemplate name
  | .btCreate _ obj => .buildTemplate obj.ObjectMeta.Name
  | .svcGet _ _ => .service
  | .svcCreate _ _ => .service
  | .svcUpdate _ _ => .service

/-- A `Create` on the BuildTemplate client. -/
def Call.isBuildTemplateCreate : Call → Bool
  | .btCreate _ _ => true
  | _ => false

/-! ## Lemmas on strings and token splitting -/

theorem length_ne_zero_iff (s : String) : s.length ≠ 0 ↔ s ≠ "" := by
  constructor
  · intro h heq
    subst heq
    exact h rfl
  · intro h hl
    apply h
    apply String.ext
    have hd : s.data.length = 0 := hl
    exact List.length_eq_zero.mp hd

theorem isSep_iff (ch : Char) : isSep ch = true ↔ ch = ':' ∨ ch = '=' := by
  simp [isSep]

theorem isSep_false_iff (ch : Char) : isSep ch = false ↔ ch ≠ ':' ∧ ch ≠ '=' := by
  simp [isSep]

theorem findSep_none_iff (l : List Char) :
    findSep l = none ↔ ':' ∉ l ∧ '=' ∉ l := by
  induction l with
  | nil => simp [findSep]
  | cons ch rest ih =>
    by_cases hc : isSep ch = true
    · have h := (isSep_iff ch).mp hc
      simp only [findSep, hc, if_true, List.mem_cons, not_or]
      constructor
      · intro h0
        cases h0
      · rintro ⟨⟨h1, _⟩, ⟨h2, _⟩⟩
        rcases h with h | h
        · exact absurd h.symm h1
        · exact absurd h.symm h2
    · have hf : isSep ch = false := by simpa using hc
      have h := (isSep_false_iff ch).mp hf
      simp only [findSep, hf, Bool.false_eq_true, if_false, Option.map_eq_none', ih,
        List.mem_cons, not_or]
      constructor
      · rintro ⟨h1, h2⟩
        exact ⟨⟨fun e => h.1 e.symm, h1⟩, ⟨fun e => h.2 e.symm, h2⟩⟩
      · rintro ⟨⟨_, h1⟩, ⟨_, h2⟩⟩
        exact ⟨h1, h2⟩

theorem findSep_first (l : List Char) (i : Nat)
    (hbefore : ':' ∉ l.take i ∧ '=' ∉ l.take i)
    (hat : l[i]? = some ':' ∨ l[i]? = some '=') : findSep l = some i := by
  induction l generalizing i with
  | nil => simp at hat
  | cons ch rest ih =>
    cases i with
    | zero =>
      have hc : isSep ch = true := by
        rw [isSep_iff]
        rcases hat with h | h
        · left; simpa using h
        · right; simpa using h
      simp [findSep, hc]
    | succ j =>
      have hf : isSep ch = false := by
        rw [isSep_false_iff]
        constructor
        · intro e
          exact hbefore.1 (by simp [e])
        · intro e
          exact hbefore.2 (by simp [e])
      have hrec : findSep rest = some j := by
        apply ih
        · constructor
          · intro hm
            exact hbefore.1 (by simp [hm])
          · intro hm
            exact hbefore.2 (by simp [hm])
        · simpa using hat
      simp [findSep, hf, hrec]

theorem split2_no_sep (s : String) (h : ':' ∉ s.data ∧ '=' ∉ s.data) : split2 s = [s] := by
  have hn := (findSep_none_iff s.data).mpr h
  unfold split2
  by_cases he : s.data = []
  · have hs : s = "" := String.ext he
    simp [hs]
  · simp [he, hn]

theorem split2_first_sep (s : String) (i : Nat)
    (hbefore : ':' ∉ s.data.take i ∧ '=' ∉ s.data.take i)
    (hat : s.data[i]? = some ':' ∨ s.data[i]? = some '=') :
    split2 s = [String.mk (s.data.take i), String.mk (s.data.drop (i + 1))] := by
  have hf := findSep_first s.data i hbefore hat
  have he : s.data ≠ [] := by
    intro e
    rw [e] at hf
    simp [findSep] at hf
  unfold split2
  simp [he, hf]

theorem findSep_some (l : List Char) (i : Nat) (h : findSep l = some i) :
    (':' ∉ l.take i ∧ '=' ∉ l.take i) ∧ (l[i]? = some ':' ∨ l[i]? = some '=') := by
  induction l generalizing i with
  | nil => simp [findSep] at h
  | cons ch rest ih =>
    by_cases hc : isSep ch = true
    · simp only [findSep, hc, if_true, Option.some.injEq] at h
      subst h
      have hs := (isSep_iff ch).mp hc
      refine ⟨by simp, ?_⟩
      rcases hs with e | e
      · left; simp [e]
      · right; simp [e]
    · have hf : isSep ch = false := by simpa using hc
      simp only [findSep, hf, Bool.false_eq_true, if_false, Option.map_eq_some'] at h
      obtain ⟨j, hj, hij⟩ := h
      subst hij
      have hr := ih j hj
      have hne := (isSep_false_iff ch).mp hf
      refine ⟨⟨?_, ?_⟩, ?_⟩
      · simp only [List.take_succ_cons, List.mem_cons, not_or]
        exact ⟨fun e => hne.1 e.symm, hr.1.1⟩
      · simp only [List.take_succ_cons, List.mem_cons, not_or]
        exact ⟨fun e => hne.2 e.symm, hr.1.2⟩
      · simpa using hr.2

theorem split2_pair (s k v : String) (h : split2 s = [k, v]) :
    ∃ i, k = String.mk (s.data.take i) ∧ v = String.mk (s.data.drop (i + 1)) ∧
      (s.data[i]? = some ':' ∨ s.data[i]? = some '=') := by
  unfold split2 at h
  by_cases he : s.data = []
  · simp [he] at h
  · rw [if_neg he] at h
    cases hf : findSep s.data with
    | none => simp [hf] at h
    | some i =>
      simp only [hf, List.cons.injEq, and_true] at h
      exact ⟨i, h.1.symm, h.2.symm, (findSep_some s.data i hf).2⟩

/-! ## Lemmas on maps and on the two parsing loops -/

theorem GoMap.keys_assign (m : GoMap) (k v : String) :
    (GoMap.assign m k v).keys = k :: (GoMap.keys (m.filter (fun p => p.1 != k))) := by
  simp [GoMap.assign, GoMap.keys]

theorem GoMap.mem_keys_assign (m : GoMap) (k v x : String) :
    x ∈ (GoMap.assign m k v).keys ↔ x = k ∨ (x ≠ k ∧ x ∈ GoMap.keys m) := by
  simp only [GoMap.assign, GoMap.keys, List.map_cons, List.mem_cons, List.mem_map,
    List.mem_filter, bne_iff_ne, ne_eq]
  constructor
  · rintro (h | ⟨p, ⟨h1, h2⟩, h3⟩)
    · exact Or.inl h
    · subst h3
      exact Or.inr ⟨h2, p, h1, rfl⟩
  · rintro (h | ⟨h2, p, h1, h3⟩)
    · exact Or.inl h
    · subst h3
      exact Or.inr ⟨p, ⟨h1, h2⟩, rfl⟩

theorem GoMap.find_assign_self (m : GoMap) (k v : String) :
    (GoMap.assign m k v).find k = some v := by
  simp [GoMap.assign, GoMap.find, List.lookup]

theorem GoMap.find_filter_ne (m : GoMap) (k x : String) (h : x ≠ k) :
    GoMap.find (m.filter (fun p => p.1 != k)) x = GoMap.find m x := by
  induction m with
  | nil => rfl
  | cons p rest ih =>
    obtain ⟨a, b⟩ := p
    unfold GoMap.find at ih ⊢
    by_cases hak : a = k
    · subst hak
      have hxa : (x == a) = false := by simpa using h
      simp [List.filter, List.lookup, hxa, ih]
    · have hak2 : (a != k) = true := by simpa using hak
      by_cases hxa : x = a
      · subst hxa
        simp [List.filter, hak2, List.lookup]
      · have hxa2 : (x == a) = false := by simpa using hxa
        simp [List.filter, hak2, List.lookup, hxa2, ih]

theorem GoMap.find_assign_ne (m : GoMap) (k v x : String) (h : x ≠ k) :
    (GoMap.assign m k v).find x = GoMap.find m x := by
  have hxk : (x == k) = false := by simpa using h
  have := GoMap.find_filter_ne m k x h
  unfold GoMap.find at this ⊢
  simp [GoMap.assign, List.lookup, hxk, this]

theorem tokenKey_ne (s x : String) (h : tokenKey s ≠ some x) (v : String) :
    split2 s ≠ [x, v] := by
  intro e
  apply h
  simp [tokenKey, e]

theorem labelStep_cases (m : GoMap) (s : String) :
    (∃ k v, split2 s = [k, v] ∧ labelStep m s = m.assign k v) ∨
      ((∀ k v, split2 s ≠ [k, v]) ∧ labelStep m s = m) := by
  unfold labelStep
  split
  · next k v h => exact Or.inl ⟨k, v, h, rfl⟩
  · next h => exact Or.inr ⟨fun k v e => h k v e, rfl⟩

theorem labelStep_no_sep (m : GoMap) (s : String) (h : ':' ∉ s.data ∧ '=' ∉ s.data) :
    labelStep m s = m := by
  simp [labelStep, split2_no_sep s h]

theorem getLabels_append (pre post : List String) :
    getLabels (pre ++ post) = post.foldl labelStep (getLabels pre) := by
  simp [getLabels, List.foldl_append]

theorem mem_keys_foldl (slice : List String) (m : GoMap) (x : String)
    (h : x ∈ GoMap.keys (slice.foldl labelStep m)) :
    x ∈ GoMap.keys m ∨ ∃ t ∈ slice, ∃ v, split2 t = [x, v] := by
  induction slice generalizing m with
  | nil => exact Or.inl h
  | cons s rest ih =>
    rw [List.foldl_cons] at h
    rcases ih _ h with h1 | ⟨t, ht, v, hv⟩
    · rcases labelStep_cases m s with ⟨k, v, hs, hm⟩ | ⟨_, hm⟩
      · rw [hm, GoMap.mem_keys_assign] at h1
        rcases h1 with e | ⟨_, h2⟩
        · subst e
          exact Or.inr ⟨s, by simp, v, hs⟩
        · exact Or.inl h2
      · rw [hm] at h1
        exact Or.inl h1
    · exact Or.inr ⟨t, by simp [ht], v, hv⟩

theorem mem_keys_foldl_of_mem (slice : List String) (m : GoMap) (x : String)
    (h : x ∈ GoMap.keys m) : x ∈ GoMap.keys (slice.foldl labelStep m) := by
  induction slice generalizing m with
  | nil => exact h
  | cons s rest ih =>
    rw [List.foldl_cons]
    apply ih
    rcases labelStep_cases m s with ⟨k, v, _, hm⟩ | ⟨_, hm⟩
    · rw [hm, GoMap.mem_keys_assign]
      by_cases e : x = k
      · exact Or.inl e
      · exact Or.inr ⟨e, h⟩
    · rw [hm]
      exact h

theorem find_foldl_of_no_key (slice : List String) (m : GoMap) (x : String)
    (h : ∀ t ∈ slice, ∀ v, split2 t ≠ [x, v]) :
    GoMap.find (slice.foldl labelStep m) x = GoMap.find m x := by
  induction slice generalizing m with
  | nil => rfl
  | cons s rest ih =>
    rw [List.foldl_cons, ih _ (fun t ht v => h t (by simp [ht]) v)]
    rcases labelStep_cases m s with ⟨k, v, hs, hm⟩ | ⟨_, hm⟩
    · rw [hm]
      apply GoMap.find_assign_ne
      intro e
      subst e
      exact h s (by simp) v hs
    · rw [hm]

theorem envStep_cases (m : List EnvVar) (s : String) :
    (∃ k v, split2 s = [k, v] ∧ envStep m s = m ++ [{ Name := k, Value := v }]) ∨
      ((∀ k v, split2 s ≠ [k, v]) ∧ envStep m s = m) := by
  unfold envStep
  split
  · next k v h => exact Or.inl ⟨k, v, h, rfl⟩
  · next h => exact Or.inr ⟨fun k v e => h k v e, rfl⟩

theorem getEnv_append (pre post : List String) :
    getEnv (pre ++ post) = post.foldl envStep (getEnv pre) := by
  simp [getEnv, List.foldl_append]

theorem foldl_envStep (slice : List String) (acc : List EnvVar) :
    slice.foldl envStep acc = acc ++ slice.filterMap (fun s =>
      match split2 s with
      | [k, v] => some { Name := k, Value := v }
      | _ => none) := by
  induction slice generalizing acc with
  | nil => simp
  | cons s rest ih =>
    rw [List.foldl_cons, ih]
    rcases envStep_cases acc s with ⟨k, v, hs, hm⟩ | ⟨hs, hm⟩
    · rw [hm]
      simp [List.filterMap_cons, hs]
    · rw [hm]
      have : (match split2 s with
          | [k, v] => some ({ Name := k, Value := v } : EnvVar)
          | _ => none) = none := by
        split
        · next k v h => exact absurd h (hs k v)
        · rfl
      simp [List.filterMap_cons, this]

/-! ## Image references and build descriptors -/

/-- C2: `fromSource`, `fromURL` and `fromFile` set the container image to
`knative-local-registry:5000/<namespace>-<name>-<kind>:latest` with kind `source`, `url`,
`file`, the `IMAGE` argument of the build carries the same string, `fromImage` sets the image
to the `Image` flag unchanged, and the Service built from a configuration keeps its image. -/
theorem image_reference_format (f : Flags) (n : String) (rest : List String) :
    ((fromSource f (n :: rest)).RevisionTemplate.Spec.Container.Image =
        "knative-local-registry:5000/" ++ f.Namespace ++ "-" ++ n ++ "-" ++ "source" ++ ":latest" ∧
      (fromSource f (n :: rest)).argument "IMAGE" =
        some ("knative-local-registry:5000/" ++ f.Namespace ++ "-" ++ n ++ "-" ++ "source" ++ ":latest")) ∧
    ((fromURL f (n :: rest)).RevisionTemplate.Spec.Container.Image =
        "knative-local-registry:5000/" ++ f.Namespace ++ "-" ++ n ++ "-" ++ "url" ++ ":latest" ∧
      (fromURL f (n :: rest)).argument "IMAGE" =
        some ("knative-local-registry:5000/" ++ f.Namespace ++ "-" ++ n ++ "-" ++ "url" ++ ":latest")) ∧
    ((fromFile f (n :: rest)).RevisionTemplate.Spec.Container.Image =
        "knative-local-registry:5000/" ++ f.Namespace ++ "-" ++ n ++ "-" ++ "file" ++ ":latest" ∧
      (fromFile f (n :: rest)).argument "IMAGE" =
        some ("knative-local-registry:5000/" ++ f.Namespace ++ "-" ++ n ++ "-" ++ "file" ++ ":latest")) ∧
    (fromImage f (n :: rest)).RevisionTemplate.Spec.Container.Image = f.Image ∧
    ∀ (t : Clock) (cfg : ConfigurationSpec),
      (DeployService.service f t (n :: rest) cfg).configuration.RevisionTemplate.Spec.Container.Image =
        cfg.RevisionTemplate.Spec.Container.Image := by
  have hs : registry ++ "/" ++ f.Namespace ++ "-" ++ n ++ "-source:latest" =
      "knative-local-registry:5000/" ++ f.Namespace ++ "-" ++ n ++ "-" ++ "source" ++ ":latest" := by
    simp only [registry, String.append_assoc]
    rfl
  have hu : registry ++ "/" ++ f.Namespace ++ "-" ++ n ++ "-url:latest" =
      "knative-local-registry:5000/" ++ f.Namespace ++ "-" ++ n ++ "-" ++ "url" ++ ":latest" := by
    simp only [registry, String.append_assoc]
    rfl
  have hf : registry ++ "/" ++ f.Namespace ++ "-" ++ n ++ "-file:latest" =
      "knative-local-registry:5000/" ++ f.Namespace ++ "-" ++ n ++ "-" ++ "file" ++ ":latest" := by
    simp only [registry, String.append_assoc]
    rfl
  refine ⟨⟨hs, ?_⟩, ⟨hu, ?_⟩, ⟨hf, ?_⟩, rfl, fun _ _ => rfl⟩
  · rw [← hs]; rfl
  · rw [← hu]; rfl
  · rw [← hf]; rfl

/-- C9: the build of the configuration by source kind: none for an image; for git the source
`{Url: Source, Revision: Revision}` and the template `kaniko`; for a URL the template
`getandbuild` with the argument `URL` equal to the flag; for a file the template `kaniko`
with the argument `DOCKERFILE` equal to `/docker-file/<name>`; and the Service built from a
configuration keeps its build. -/
theorem build_descriptor (f : Flags) (n : String) (rest : List String) :
    (fromImage f (n :: rest)).Build = none ∧
    ((fromSource f (n :: rest)).git = some { Url := f.Source, Revision := f.Revision } ∧
      (fromSource f (n :: rest)).templateName = some "kaniko") ∧
    ((fromURL f (n :: rest)).templateName = some "getandbuild" ∧
      (fromURL f (n :: rest)).argument "URL" = some f.URL) ∧
    ((fromFile f (n :: rest)).templateName = some "kaniko" ∧
      (fromFile f (n :: rest)).argument "DOCKERFILE" = some ("/docker-file/" ++ n)) ∧
    ∀ (t : Clock) (cfg : ConfigurationSpec),
      (DeployService.service f t (n :: rest) cfg).configuration.Build = cfg.Build :=
  ⟨rfl, ⟨rfl, rfl⟩, ⟨rfl, rfl⟩, ⟨rfl, rfl⟩, fun _ _ => rfl⟩

/-! ## Labels -/

/-- C5, as stated, fails: the token `created-by` contains neither `:` nor `=`, yet its text is
a key of the result of `getLabels ["created-by"]`; and the token `a` of `["a", "a:b"]`
contains no separator, yet `a` is a key of the result. -/
theorem getLabels_dropped_token_text_is_key :
    (':' ∉ "created-by".data ∧ '=' ∉ "created-by".data ∧
      "created-by" ∈ (getLabels ["created-by"]).keys) ∧
    (':' ∉ "a".data ∧ '=' ∉ "a".data ∧ "a" ∈ (getLabels ["a", "a:b"]).keys) := by
  decide

/-- C5, amended: in a token list `pre ++ s :: post`, a token `s` whose first separator is at
index `i` makes `getLabels` assign the text before index `i` to all the text after index `i`
(so the key is a key of the result); a token `s` with neither `:` nor `=` contributes nothing
(the result is that of the list without it, the other tokens being processed), and its text
is a key of the result only if it is `created-by` or the text before the first separator of
another token; and `env:key=value` yields key `env` with value `key=value`. -/
theorem getLabels_first_separator (pre post : List String) (s : String) :
    (∀ i : Nat, (':' ∉ s.data.take i ∧ '=' ∉ s.data.take i) →
        (s.data[i]? = some ':' ∨ s.data[i]? = some '=') →
        getLabels (pre ++ [s]) =
            (getLabels pre).assign (String.mk (s.data.take i)) (String.mk (s.data.drop (i + 1))) ∧
          (getLabels (pre ++ [s])).find (String.mk (s.data.take i)) =
            some (String.mk (s.data.drop (i + 1))) ∧
          String.mk (s.data.take i) ∈ (getLabels (pre ++ s :: post)).keys) ∧
    ((':' ∉ s.data ∧ '=' ∉ s.data) →
        getLabels (pre ++ s :: post) = getLabels (pre ++ post) ∧
          (s ∈ (getLabels (pre ++ s :: post)).keys →
            s = "created-by" ∨
              ∃ t ∈ pre ++ post, ∃ i : Nat,
                (t.data[i]? = some ':' ∨ t.data[i]? = some '=') ∧ s.data = t.data.take i)) ∧
    (getLabels ["env:key=value"]).find "env" = some "key=value" := by
  refine ⟨?_, ?_, by decide⟩
  · intro i hbefore hat
    have hsplit := split2_first_sep s i hbefore hat
    have hstep : getLabels (pre ++ [s]) =
        (getLabels pre).assign (String.mk (s.data.take i)) (String.mk (s.data.drop (i + 1))) := by
      rw [getLabels_append]
      simp [labelStep, hsplit]
    refine ⟨hstep, ?_, ?_⟩
    · rw [hstep]
      exact GoMap.find_assign_self _ _ _
    · have hsplit2 : pre ++ s :: post = (pre ++ [s]) ++ post := by simp
      rw [hsplit2, getLabels_append]
      apply mem_keys_foldl_of_mem
      rw [hstep, GoMap.mem_keys_assign]
      exact Or.inl rfl
  · intro hno
    have hdrop : getLabels (pre ++ s :: post) = getLabels (pre ++ post) := by
      rw [getLabels_append, getLabels_append, List.foldl_cons, labelStep_no_sep _ s hno]
    refine ⟨hdrop, ?_⟩
    intro hmem
    rw [hdrop] at hmem
    unfold getLabels at hmem
    rcases mem_keys_foldl _ _ _ hmem with h0 | ⟨t, ht, v, hv⟩
    · left
      simpa [GoMap.keys] using h0
    · right
      obtain ⟨i, hk, _, hat⟩ := split2_pair t s v hv
      refine ⟨t, ht, i, hat, ?_⟩
      rw [hk]

/-- C5, amended, on concrete tokens: `env:key=value` after `x=y`, and the token `junk`
dropped between `x=y` and `a:b`. -/
theorem getLabels_first_separator_witness :
    getLabels (["x=y"] ++ ["env:key=value"]) = (getLabels ["x=y"]).assign "env" "key=value" ∧
    getLabels (["x=y"] ++ "junk" :: ["a:b"]) = getLabels (["x=y"] ++ ["a:b"]) :=
  ⟨((getLabels_first_separator ["x=y"] [] "env:key=value").1 3 (by decide) (by decide)).1,
    ((getLabels_first_separator ["x=y"] ["a:b"] "junk").2.1 (by decide)).1⟩

/-- C6, as stated, fails: with the user label `created-by=me` the value of `created-by` in
the result of `getLabels` is `me`, not `tm`. -/
theorem getLabels_created_by_overridden :
    (getLabels ["created-by=me"]).find "created-by" = some "me" ∧
    (getLabels ["created-by=me"]).find "created-by" ≠ some "tm" := by
  decide

/-- C6, amended: the labels of the Service are `getLabels Labels`; for every token list the
result of `getLabels` has the key `created-by`, and its value is `tm` when no token has the
key `created-by` (the text before its first separator). -/
theorem getLabels_created_by (slice : List String) :
    (∀ (f : Flags) (t : Clock) (args : List String) (cfg : ConfigurationSpec),
      (DeployService.service f t args cfg).ObjectMeta.Labels = getLabels f.Labels) ∧
    "created-by" ∈ (getLabels slice).keys ∧
    ((∀ tok ∈ slice, tokenKey tok ≠ some "created-by") →
      (getLabels slice).find "created-by" = some "tm") := by
  refine ⟨fun _ _ _ _ => rfl, ?_, ?_⟩
  · unfold getLabels
    apply mem_keys_foldl_of_mem
    simp [GoMap.keys]
  · intro h
    unfold getLabels
    rw [find_foldl_of_no_key _ _ _ (fun tok htok v => tokenKey_ne tok _ (h tok htok) v)]
    rfl

/-- C6, amended, on the labels `env:prod` and `junk`. -/
theorem getLabels_created_by_witness :
    (getLabels ["env:prod", "junk"]).find "created-by" = some "tm" :=
  (getLabels_created_by ["env:prod", "junk"]).2.2 (by decide)

/-! ## Environment -/

theorem getEnv_eq_filterMap (slice : List String) :
    getEnv slice = slice.filterMap (fun s =>
      match split2 s with
      | [k, v] => some { Name := k, Value := v }
      | _ => none) := by
  unfold getEnv
  rw [foldl_envStep]
  simp

theorem getEnv_append_append (pre post : List String) :
    getEnv (pre ++ post) = getEnv pre ++ getEnv post := by
  simp [getEnv_eq_filterMap, List.filterMap_append]

theorem getEnv_singleton (s : String) : getEnv [s] = envStep [] s := rfl

theorem tokenKey_of_mem_getEnv (slice : List String) (e : EnvVar) (h : e ∈ getEnv slice) :
    ∃ tok ∈ slice, tokenKey tok = some e.Name := by
  rw [getEnv_eq_filterMap, List.mem_filterMap] at h
  obtain ⟨tok, htok, hsome⟩ := h
  refine ⟨tok, htok, ?_⟩
  unfold tokenKey
  split at hsome
  · next k v hs =>
    simp only [Option.some.injEq] at hsome
    subst hsome
    simp [hs]
  · cases hsome

/-- C7, as stated, fails: with the user token `timestamp=1` the environment built by
`DeployService` holds two entries named `timestamp`. -/
theorem DeployService_env_two_timestamps :
    (DeployService.service { Env := ["timestamp=1"] } { stamp := "2018-11-04 10:00:00" } ["foo"]
        {}).containerEnv =
      [{ Name := "timestamp", Value := "1" },
        { Name := "timestamp", Value := "2018-11-04 10:00:00" }] ∧
    ((DeployService.service { Env := ["timestamp=1"] } { stamp := "2018-11-04 10:00:00" } ["foo"]
        {}).containerEnv.filter (fun e => e.Name == "timestamp")).length = 2 := by
  decide

/-- C7, amended: the environment of the Service built by `DeployService` is `getEnv Env`
followed by the entry `timestamp` as its last element; `getEnv` yields, in input order, one
entry per token that has a separator, split at the first one, and nothing for a token with
neither `:` nor `=`; and the environment holds exactly one entry named `timestamp` when no
user token has the key `timestamp`. -/
theorem DeployService_env (f : Flags) (t : Clock) (args : List String)
    (cfg : ConfigurationSpec) :
    (DeployService.service f t args cfg).containerEnv =
        getEnv f.Env ++ [{ Name := "timestamp", Value := t.stamp }] ∧
    (DeployService.service f t args cfg).containerEnv.getLast? =
        some { Name := "timestamp", Value := t.stamp } ∧
    (∀ (pre post : List String) (s : String) (i : Nat),
        (':' ∉ s.data.take i ∧ '=' ∉ s.data.take i) →
        (s.data[i]? = some ':' ∨ s.data[i]? = some '=') →
        getEnv (pre ++ s :: post) =
          getEnv pre ++
            { Name := String.mk (s.data.take i), Value := String.mk (s.data.drop (i + 1)) } ::
              getEnv post) ∧
    (∀ (pre post : List String) (s : String), (':' ∉ s.data ∧ '=' ∉ s.data) →
        getEnv (pre ++ s :: post) = getEnv pre ++ getEnv post) ∧
    ((∀ tok ∈ f.Env, tokenKey tok ≠ some "timestamp") →
      ((DeployService.service f t args cfg).containerEnv.filter
        (fun e => e.Name == "timestamp")).length = 1) := by
  have henv : (DeployService.service f t args cfg).containerEnv =
      getEnv f.Env ++ [{ Name := "timestamp", Value := t.stamp }] := rfl
  refine ⟨henv, ?_, ?_, ?_, ?_⟩
  · rw [henv]
    simp
  · intro pre post s i hbefore hat
    have hsplit := split2_first_sep s i hbefore hat
    have hcons : pre ++ s :: post = pre ++ ([s] ++ post) := by simp
    rw [hcons, getEnv_append_append, getEnv_append_append, getEnv_singleton]
    simp [envStep, hsplit]
  · intro pre post s hno
    have hcons : pre ++ s :: post = pre ++ ([s] ++ post) := by simp
    rw [hcons, getEnv_append_append, getEnv_append_append, getEnv_singleton]
    simp [envStep, split2_no_sep s hno]
  · intro h
    have hnone : (getEnv f.Env).filter (fun e => e.Name == "timestamp") = [] := by
      rw [List.filter_eq_nil_iff]
      intro e he hname
      obtain ⟨tok, htok, hkey⟩ := tokenKey_of_mem_getEnv _ _ he
      have hn : e.Name = "timestamp" := by simpa using hname
      rw [hn] at hkey
      exact h tok htok hkey
    rw [henv, List.filter_append, hnone]
    rfl

/-- C7, amended, on the tokens `a=b`, `junk`, `c:d=e`. -/
theorem DeployService_env_witness :
    getEnv (["a=b"] ++ "c:d=e" :: ["junk"]) =
        getEnv ["a=b"] ++ { Name := "c", Value := "d=e" } :: getEnv ["junk"] ∧
    getEnv (["a=b"] ++ "junk" :: ["c:d=e"]) = getEnv ["a=b"] ++ getEnv ["c:d=e"] ∧
    ((DeployService.service { Env := ["a=b", "junk", "c:d=e"] } { stamp := "now" } ["foo"]
        {}).containerEnv.filter (fun e => e.Name == "timestamp")).length = 1 :=
  ⟨(DeployService_env { Env := ["a=b", "junk", "c:d=e"] } { stamp := "now" } ["foo"] {}).2.2.1
      ["a=b"] ["junk"] "c:d=e" 1 (by decide) (by decide),
    (DeployService_env { Env := ["a=b", "junk", "c:d=e"] } { stamp := "now" } ["foo"] {}).2.2.2.1
      ["a=b"] ["c:d=e"] "junk" (by decide),
    (DeployService_env { Env := ["a=b", "junk", "c:d=e"] } { stamp := "now" } ["foo"] {}).2.2.2.2
      (by decide)⟩

/-! ## The reconciler of `DeployService` -/

/-- C3: once the `switch` has produced a configuration, `DeployService` makes one `Get` of
the Service and exactly one write after it, and its result is the result of that write.  When
the `Get` fails with NotFound the write is the client's `Create` applied to the constructed
Service: `DeployService` returns the error of that `Create` (nil when it succeeds), the
Service store is the one the `Create` left, the other stores are untouched, and the calls
are `Get`, `Create` (no `Update`).  When the `Get` succeeds the write is the client's
`Update` applied to the constructed Service carrying the resource version of the fetched
one, with the same account of the result, the stores and the calls (no `Create`). -/
theorem DeployService_reconcile {κ β ς : Type} (c : Client κ β ς) (f : Flags) (t : Clock)
    (n : String) (rest : List String) (w w1 : World κ β ς) (cfg : ConfigurationSpec)
    (hcfg : DeployService.configuration c f (n :: rest) w = (.ok cfg, w1)) :
    (∀ err, c.ServicesGet w1.svcs f.Namespace n = .error err → IsNotFound err = true →
      DeployService c f t (n :: rest) w =
          (errOf (c.ServicesCreate w1.svcs f.Namespace
              (DeployService.service f t (n :: rest) cfg)).1,
            { cms := w1.cms
              bts := w1.bts
              svcs := (c.ServicesCreate w1.svcs f.Namespace
                (DeployService.service f t (n :: rest) cfg)).2
              trace := w1.trace ++ [.svcGet f.Namespace n,
                .svcCreate f.Namespace (DeployService.service f t (n :: rest) cfg)] }) ∧
        (DeployService c f t (n :: rest) w).2.trace =
          w1.trace ++ [.svcGet f.Namespace n,
            .svcCreate f.Namespace (DeployService.service f t (n :: rest) cfg)]) ∧
    (∀ service, c.ServicesGet w1.svcs f.Namespace n = .ok service →
      DeployService c f t (n :: rest) w =
          (errOf (c.ServicesUpdate w1.svcs f.Namespace
              ((DeployService.service f t (n :: rest) cfg).withResourceVersion
                service.ObjectMeta.ResourceVersion)).1,
            { cms := w1.cms
              bts := w1.bts
              svcs := (c.ServicesUpdate w1.svcs f.Namespace
                ((DeployService.service f t (n :: rest) cfg).withResourceVersion
                  service.ObjectMeta.ResourceVersion)).2
              trace := w1.trace ++ [.svcGet f.Namespace n,
                .svcUpdate f.Namespace
                  ((DeployService.service f t (n :: rest) cfg).withResourceVersion
                    service.ObjectMeta.ResourceVersion)] }) ∧
        (DeployService c f t (n :: rest) w).2.trace =
          w1.trace ++ [.svcGet f.Namespace n,
            .svcUpdate f.Namespace ((DeployService.service f t (n :: rest) cfg).withResourceVersion
              service.ObjectMeta.ResourceVersion)] ∧
        ((DeployService.service f t (n :: rest) cfg).withResourceVersion
            service.ObjectMeta.ResourceVersion).ObjectMeta.ResourceVersion =
          service.ObjectMeta.ResourceVersion ∧
        ((DeployService.service f t (n :: rest) cfg).withResourceVersion
            service.ObjectMeta.ResourceVersion).Spec =
          (DeployService.service f t (n :: rest) cfg).Spec) := by
  constructor
  · intro err hget hnf
    have hfull : DeployService c f t (n :: rest) w =
        (errOf (c.ServicesCreate w1.svcs f.Namespace
            (DeployService.service f t (n :: rest) cfg)).1,
          { cms := w1.cms
            bts := w1.bts
            svcs := (c.ServicesCreate w1.svcs f.Namespace
              (DeployService.service f t (n :: rest) cfg)).2
            trace := w1.trace ++ [.svcGet f.Namespace n,
              .svcCreate f.Namespace (DeployService.service f t (n :: rest) cfg)] }) := by
      simp [DeployService, hcfg, arg0, hget, hnf, World.log]
    exact ⟨hfull, by rw [hfull]⟩
  · intro service hget
    have hfull : DeployService c f t (n :: rest) w =
        (errOf (c.ServicesUpdate w1.svcs f.Namespace
            ((DeployService.service f t (n :: rest) cfg).withResourceVersion
              service.ObjectMeta.ResourceVersion)).1,
          { cms := w1.cms
            bts := w1.bts
            svcs := (c.ServicesUpdate w1.svcs f.Namespace
              ((DeployService.service f t (n :: rest) cfg).withResourceVersion
                service.ObjectMeta.ResourceVersion)).2
            trace := w1.trace ++ [.svcGet f.Namespace n,
              .svcUpdate f.Namespace
                ((DeployService.service f t (n :: rest) cfg).withResourceVersion
                  service.ObjectMeta.ResourceVersion)] }) := by
      simp [DeployService, hcfg, arg0, hget, World.log]
    exact ⟨hfull, by rw [hfull], rfl, rfl⟩

/-- C3 on the in-memory cluster: an image deployment of `foo` on the empty cluster returns
nil after `Get`, `Create` and leaves the Service stored with resource version `1`; where the
Service exists with resource version `7` it returns nil after `Get`, `Update` and leaves the
new Service stored in its place with resource version `71`. -/
theorem DeployService_reconcile_witness :
    DeployService (memClient []) imageFlags {} ["foo"] emptyWorld =
        (none,
          { cms := []
            bts := []
            svcs := [(DeployService.service imageFlags {} ["foo"]
              (fromImage imageFlags ["foo"])).withResourceVersion "1"]
            trace := [.svcGet "ns" "foo",
              .svcCreate "ns" (DeployService.service imageFlags {} ["foo"]
                (fromImage imageFlags ["foo"]))] }) ∧
    DeployService (memClient []) imageFlags {} ["foo"] deployedWorld =
        (none,
          { cms := deployedWorld.cms
            bts := []
            svcs := [(DeployService.service imageFlags {} ["foo"]
              (fromImage imageFlags ["foo"])).withResourceVersion "71"]
            trace := [.svcGet "ns" "foo",
              .svcUpdate "ns" ((DeployService.service imageFlags {} ["foo"]
                (fromImage imageFlags ["foo"])).withResourceVersion "7")] }) :=
  ⟨((DeployService_reconcile (memClient []) imageFlags {} "foo" [] emptyWorld emptyWorld
      (fromImage imageFlags ["foo"]) rfl).1 errNotFound rfl rfl).1,
    ((DeployService_reconcile (memClient []) imageFlags {} "foo" [] deployedWorld deployedWorld
      (fromImage imageFlags ["foo"]) rfl).2
        { ObjectMeta := { Name := "foo", Namespace := "ns", ResourceVersion := "7" } } rfl).1⟩

/-- C4: once the `switch` has produced a configuration, a `Get` of the Service that fails
with an error other than NotFound makes `DeployService` return that error after the `Get`
alone (no `Create`, no `Update`, the stores as the prerequisites left them); an error of the
`Update` or of the `Create` is returned as it is; and `DeployService` returns nil only when
the `Update` or `Create` it issued succeeded. -/
theorem DeployService_errors {κ β ς : Type} (c : Client κ β ς) (f : Flags) (t : Clock)
    (n : String) (rest : List String) (w : World κ β ς) :
    (∀ cfg w1 err, DeployService.configuration c f (n :: rest) w = (.ok cfg, w1) →
      c.ServicesGet w1.svcs f.Namespace n = .error err → IsNotFound err = false →
      DeployService c f t (n :: rest) w = (some err, w1.log (.svcGet f.Namespace n))) ∧
    (∀ cfg w1 service err k, DeployService.configuration c f (n :: rest) w = (.ok cfg, w1) →
      c.ServicesGet w1.svcs f.Namespace n = .ok service →
      c.ServicesUpdate w1.svcs f.Namespace
          ((DeployService.service f t (n :: rest) cfg).withResourceVersion
            service.ObjectMeta.ResourceVersion) = (.error err, k) →
      (DeployService c f t (n :: rest) w).1 = some err) ∧
    (∀ cfg w1 e err k, DeployService.configuration c f (n :: rest) w = (.ok cfg, w1) →
      c.ServicesGet w1.svcs f.Namespace n = .error e → IsNotFound e = true →
      c.ServicesCreate w1.svcs f.Namespace (DeployService.service f t (n :: rest) cfg) =
        (.error err, k) →
      (DeployService c f t (n :: rest) w).1 = some err) ∧
    ((DeployService c f t (n :: rest) w).1 = none →
      ∃ cfg w1, DeployService.configuration c f (n :: rest) w = (.ok cfg, w1) ∧
        ((∃ service obj k, c.ServicesGet w1.svcs f.Namespace n = .ok service ∧
            c.ServicesUpdate w1.svcs f.Namespace
              ((DeployService.service f t (n :: rest) cfg).withResourceVersion
                service.ObjectMeta.ResourceVersion) = (.ok obj, k)) ∨
          (∃ e obj k, c.ServicesGet w1.svcs f.Namespace n = .error e ∧ IsNotFound e = true ∧
            c.ServicesCreate w1.svcs f.Namespace (DeployService.service f t (n :: rest) cfg) =
              (.ok obj, k)))) := by
  refine ⟨?_, ?_, ?_, ?_⟩
  · intro cfg w1 err hcfg hget hnf
    simp [DeployService, hcfg, arg0, hget, hnf]
  · intro cfg w1 service err k hcfg hget hupd
    simp [DeployService, hcfg, arg0, hget, hupd, errOf]
  · intro cfg w1 e err k hcfg hget hnf hcre
    simp [DeployService, hcfg, arg0, hget, hnf, hcre, errOf]
  · intro hnil
    rcases hcfg : DeployService.configuration c f (n :: rest) w with ⟨r, w1⟩
    cases r with
    | error err => simp [DeployService, hcfg] at hnil
    | ok cfg =>
      refine ⟨cfg, w1, rfl, ?_⟩
      cases hget : c.ServicesGet w1.svcs f.Namespace n with
      | ok service =>
        left
        rcases hupd : c.ServicesUpdate w1.svcs f.Namespace
            ((DeployService.service f t (n :: rest) cfg).withResourceVersion
              service.ObjectMeta.ResourceVersion) with ⟨r, k⟩
        cases r with
        | error err => simp [DeployService, hcfg, arg0, hget, hupd, errOf] at hnil
        | ok obj => exact ⟨service, obj, k, rfl, hupd⟩
      | error e =>
        right
        by_cases hnf : IsNotFound e = true
        · rcases hcre : c.ServicesCreate w1.svcs f.Namespace
              (DeployService.service f t (n :: rest) cfg) with ⟨r, k⟩
          cases r with
          | error err => simp [DeployService, hcfg, arg0, hget, hnf, hcre, errOf] at hnil
          | ok obj => exact ⟨e, obj, k, rfl, hnf, rfl⟩
        · simp [DeployService, hcfg, arg0, hget, hnf] at hnil

/-- C4 on the in-memory cluster: a refused `Get`, a refused `Update`, a refused `Create`,
and a successful `Create`. -/
theorem DeployService_errors_witness :
    DeployService (deniedClient []) imageFlags {} ["foo"] emptyWorld =
        (some errForbidden, emptyWorld.log (.svcGet "ns" "foo")) ∧
    (DeployService (readOnlyClient []) imageFlags {} ["foo"] deployedWorld).1 =
        some errForbidden ∧
    (DeployService (readOnlyClient []) imageFlags {} ["foo"] emptyWorld).1 =
        some errForbidden ∧
    (∃ cfg w1, DeployService.configuration (memClient []) imageFlags ["foo"] emptyWorld =
          (.ok cfg, w1) ∧
        ((∃ service obj k, (memClient []).ServicesGet w1.svcs "ns" "foo" = .ok service ∧
            (memClient []).ServicesUpdate w1.svcs "ns"
              ((DeployService.service imageFlags {} ["foo"] cfg).withResourceVersion
                service.ObjectMeta.ResourceVersion) = (.ok obj, k)) ∨
          (∃ e obj k, (memClient []).ServicesGet w1.svcs "ns" "foo" = .error e ∧
            IsNotFound e = true ∧
            (memClient []).ServicesCreate w1.svcs "ns"
              (DeployService.service imageFlags {} ["foo"] cfg) = (.ok obj, k)))) :=
  ⟨(DeployService_errors (deniedClient []) imageFlags {} "foo" [] emptyWorld).1
      (fromImage imageFlags ["foo"]) emptyWorld errForbidden rfl rfl rfl,
    (DeployService_errors (readOnlyClient []) imageFlags {} "foo" [] deployedWorld).2.1
      (fromImage imageFlags ["foo"]) deployedWorld
      { ObjectMeta := { Name := "foo", Namespace := "ns", ResourceVersion := "7" } }
      errForbidden deployedWorld.svcs rfl rfl rfl,
    (DeployService_errors (readOnlyClient []) imageFlags {} "foo" [] emptyWorld).2.2.1
      (fromImage imageFlags ["foo"]) emptyWorld errNotFound errForbidden emptyWorld.svcs
      rfl rfl rfl rfl,
    (DeployService_errors (memClient []) imageFlags {} "foo" [] emptyWorld).2.2.2 rfl⟩

/-! ## Source selection -/

theorem length_eq_zero_of_eq_empty (s : String) (h : s = "") : ¬ s.length ≠ 0 := by
  subst h
  simp

theorem createConfigMap_targets {κ β ς : Type} (c : Client κ β ς) (f : Flags) (data : GoMap)
    (w : World κ β ς) :
    ∃ issued, (createConfigMap c f data w).2.trace = w.trace ++ issued ∧
      ∀ call ∈ issued, call.target = .configMap := by
  unfold createConfigMap
  cases hget : c.ConfigMapsGet w.cms f.Namespace "dockerfile" with
  | ok cm =>
    refine ⟨[.cmGet f.Namespace "dockerfile",
      .cmUpdate f.Namespace ((newmap f data).withResourceVersion
        cm.ObjectMeta.ResourceVersion)], by simp [World.log], ?_⟩
    intro call hc
    simp only [List.mem_cons, List.mem_singleton, List.not_mem_nil, or_false] at hc
    rcases hc with hc | hc <;> subst hc <;> rfl
  | error e =>
    by_cases hnf : IsNotFound e = true
    · refine ⟨[.cmGet f.Namespace "dockerfile", .cmCreate f.Namespace (newmap f data)],
        by simp [hnf, World.log], ?_⟩
      intro call hc
      simp only [List.mem_cons, List.mem_singleton, List.not_mem_nil, or_false] at hc
      rcases hc with hc | hc <;> subst hc <;> rfl
    · refine ⟨[.cmGet f.Namespace "dockerfile"], by simp [hnf, World.log], ?_⟩
      intro call hc
      simp only [List.mem_singleton] at hc
      subst hc
      rfl

theorem kanikoBuildTemplate_targets {κ β ς : Type} (c : Client κ β ς) (f : Flags)
    (w : World κ β ς) :
    ∃ issued, (kanikoBuildTemplate c f w).2.trace = w.trace ++ issued ∧
      ∀ call ∈ issued, call.target = .buildTemplate "kaniko" := by
  unfold kanikoBuildTemplate
  cases hget : c.BuildTemplatesGet w.bts f.Namespace "kaniko" with
  | ok b =>
    refine ⟨[.btGet f.Namespace "kaniko"], by simp [World.log], ?_⟩
    intro call hc
    simp only [List.mem_singleton] at hc
    subst hc
    rfl
  | error e =>
    by_cases hnf : IsNotFound e = true
    · refine ⟨[.btGet f.Namespace "kaniko", .btCreate f.Namespace (kanikoTemplate f)],
        by simp [hnf, World.log], ?_⟩
      intro call hc
      simp only [List.mem_cons, List.mem_singleton, List.not_mem_nil, or_false] at hc
      rcases hc with hc | hc <;> subst hc <;> rfl
    · refine ⟨[.btGet f.Namespace "kaniko"], by simp [hnf, World.log], ?_⟩
      intro call hc
      simp only [List.mem_singleton] at hc
      subst hc
      rfl

theorem getterBuildTemplate_targets {κ β ς : Type} (c : Client κ β ς) (f : Flags)
    (w : World κ β ς) :
    ∃ issued, (getterBuildTemplate c f w).2.trace = w.trace ++ issued ∧
      ∀ call ∈ issued, call.target = .buildTemplate "getandbuild" := by
  unfold getterBuildTemplate
  cases hget : c.BuildTemplatesGet w.bts f.Namespace "getandbuild" with
  | ok b =>
    refine ⟨[.btGet f.Namespace "getandbuild"], by simp [World.log], ?_⟩
    intro call hc
    simp only [List.mem_singleton] at hc
    subst hc
    rfl
  | error e =>
    by_cases hnf : IsNotFound e = true
    · refine ⟨[.btGet f.Namespace "getandbuild", .btCreate f.Namespace (getterTemplate f)],
        by simp [hnf, World.log], ?_⟩
      intro call hc
      simp only [List.mem_cons, List.mem_singleton, List.not_mem_nil, or_false] at hc
      rcases hc with hc | hc <;> subst hc <;> rfl
    · refine ⟨[.btGet f.Namespace "getandbuild"], by simp [hnf, World.log], ?_⟩
      intro call hc
      simp only [List.mem_singleton] at hc
      subst hc
      rfl

/-- C1: `DeployService` selects the source by the first non-empty field in the order `Image`,
`Source`, `URL`, `Path`: the configuration the `switch` produces is the one of `fromImage`,
else `fromSource`, else `fromURL`, else `fromFile` (whenever it produces one, which it does
when the prerequisites of that source return nil), and the fields of lower priority have no
part in the run: the `switch` and the whole of `DeployService` give the same result, stores
and calls as with those fields empty.  The `switch` makes no call at all for an image, calls
only on the ConfigMap and the `kaniko` template for git (no file read, nothing on
`getandbuild`), and calls only on the `getandbuild` template for a URL (no file read, nothing
on the ConfigMap or on `kaniko`). -/
theorem DeployService_source_priority {κ β ς : Type} (c : Client κ β ς) (f : Flags)
    (t : Clock) (n : String) (rest : List String) (w : World κ β ς) :
    (f.Image ≠ "" →
      DeployService.configuration c f (n :: rest) w = (.ok (fromImage f (n :: rest)), w) ∧
      DeployService c f t (n :: rest) w =
        DeployService c { f with Source := "", URL := "", Path := "" } t (n :: rest) w) ∧
    (f.Image = "" → f.Source ≠ "" →
      (∀ cfg w1, DeployService.configuration c f (n :: rest) w = (.ok cfg, w1) →
        cfg = fromSource f (n :: rest)) ∧
      DeployService.configuration c f (n :: rest) w =
        DeployService.configuration c { f with URL := "", Path := "" } (n :: rest) w ∧
      DeployService c f t (n :: rest) w =
        DeployService c { f with URL := "", Path := "" } t (n :: rest) w ∧
      ((createConfigMap c f [] w).1 = none →
        (kanikoBuildTemplate c f (createConfigMap c f [] w).2).1 = none →
        (DeployService.configuration c f (n :: rest) w).1 = .ok (fromSource f (n :: rest))) ∧
      ∃ issued, (DeployService.configuration c f (n :: rest) w).2.trace = w.trace ++ issued ∧
        ∀ call ∈ issued, call.target = .configMap ∨ call.target = .buildTemplate "kaniko") ∧
    (f.Image = "" → f.Source = "" → f.URL ≠ "" →
      (∀ cfg w1, DeployService.configuration c f (n :: rest) w = (.ok cfg, w1) →
        cfg = fromURL f (n :: rest)) ∧
      DeployService.configuration c f (n :: rest) w =
        DeployService.configuration c { f with Path := "" } (n :: rest) w ∧
      DeployService c f t (n :: rest) w =
        DeployService c { f with Path := "" } t (n :: rest) w ∧
      ((getterBuildTemplate c f w).1 = none →
        (DeployService.configuration c f (n :: rest) w).1 = .ok (fromURL f (n :: rest))) ∧
      ∃ issued, (DeployService.configuration c f (n :: rest) w).2.trace = w.trace ++ issued ∧
        ∀ call ∈ issued, call.target = .buildTemplate "getandbuild") ∧
    (f.Image = "" → f.Source = "" → f.URL = "" → f.Path ≠ "" →
      (∀ cfg w1, DeployService.configuration c f (n :: rest) w = (.ok cfg, w1) →
        cfg = fromFile f (n :: rest)) ∧
      ∀ body, c.ReadFile f.Path = .ok body →
        (createConfigMap c f [(n, body)] (w.log (.readFile f.Path))).1 = none →
        (kanikoBuildTemplate c f
          (createConfigMap c f [(n, body)] (w.log (.readFile f.Path))).2).1 = none →
        (DeployService.configuration c f (n :: rest) w).1 = .ok (fromFile f (n :: rest))) := by
  refine ⟨?_, ?_, ?_, ?_⟩
  · intro hI
    have hI1 := (length_ne_zero_iff f.Image).mpr hI
    have hconf : DeployService.configuration c f (n :: rest) w =
        (.ok (fromImage f (n :: rest)), w) := by
      simp [DeployService.configuration, hI1]
    have hconf2 : DeployService.configuration c { f with Source := "", URL := "", Path := "" }
        (n :: rest) w = (.ok (fromImage f (n :: rest)), w) := by
      simp [DeployService.configuration, hI1]
      rfl
    refine ⟨hconf, ?_⟩
    unfold DeployService
    rw [hconf, hconf2]
    rfl
  · intro hI hS
    have hI0 := length_eq_zero_of_eq_empty _ hI
    have hS1 := (length_ne_zero_iff f.Source).mpr hS
    have hbranch : DeployService.configuration c f (n :: rest) w =
        match createConfigMap c f [] w with
        | (some err, w1) => (.error err, w1)
        | (none, w1) =>
          match kanikoBuildTemplate c f w1 with
          | (some err, w2) => (.error err, w2)
          | (none, w2) => (.ok (fromSource f (n :: rest)), w2) := by
      unfold DeployService.configuration
      rw [if_neg hI0, if_pos hS1]
    have hbranch2 : DeployService.configuration c { f with URL := "", Path := "" }
        (n :: rest) w = DeployService.configuration c f (n :: rest) w := by
      rw [hbranch]
      unfold DeployService.configuration
      rw [if_neg hI0, if_pos hS1]
      rfl
    refine ⟨?_, hbranch2.symm, ?_, ?_, ?_⟩
    · intro cfg w1 h
      rw [hbranch] at h
      rcases h1 : createConfigMap c f [] w with ⟨_ | e, wa⟩
      · simp only [h1] at h
        rcases h2 : kanikoBuildTemplate c f wa with ⟨_ | e, wb⟩
        · simp only [h2, Prod.mk.injEq, Except.ok.injEq] at h
          exact h.1.symm
        · simp [h2] at h
      · simp [h1] at h
    · unfold DeployService
      rw [hbranch2]
      rfl
    · intro ha hb
      rw [hbranch]
      rcases h1 : createConfigMap c f [] w with ⟨r1, wa⟩
      rw [h1] at ha hb
      simp only at ha hb
      subst ha
      rcases h2 : kanikoBuildTemplate c f wa with ⟨r2, wb⟩
      rw [h2] at hb
      simp only at hb
      subst hb
      simp [h2]
    · rw [hbranch]
      obtain ⟨i1, ht1, hp1⟩ := createConfigMap_targets c f [] w
      rcases h1 : createConfigMap c f [] w with ⟨_ | e, wa⟩
      · rw [h1] at ht1
        simp only at ht1
        obtain ⟨i2, ht2, hp2⟩ := kanikoBuildTemplate_targets c f wa
        have hw : ∀ r, (match kanikoBuildTemplate c f wa with
            | (some err, w2) => ((.error err, w2) : Except Err ConfigurationSpec × World κ β ς)
            | (none, w2) => (.ok r, w2)).2 = (kanikoBuildTemplate c f wa).2 := by
          intro r
          rcases kanikoBuildTemplate c f wa with ⟨_ | e, wb⟩ <;> rfl
        refine ⟨i1 ++ i2, ?_, ?_⟩
        · simp only [hw, ht2, ht1, List.append_assoc]
        · intro call hc
          rcases List.mem_append.mp hc with hc | hc
          · exact Or.inl (hp1 call hc)
          · exact Or.inr (hp2 call hc)
      · rw [h1] at ht1
        exact ⟨i1, ht1, fun call hc => Or.inl (hp1 call hc)⟩
  · intro hI hS hU
    have hI0 := length_eq_zero_of_eq_empty _ hI
    have hS0 := length_eq_zero_of_eq_empty _ hS
    have hU1 := (length_ne_zero_iff f.URL).mpr hU
    have hbranch : DeployService.configuration c f (n :: rest) w =
        match getterBuildTemplate c f w with
        | (some err, w1) => (.error err, w1)
        | (none, w1) => (.ok (fromURL f (n :: rest)), w1) := by
      unfold DeployService.configuration
      rw [if_neg hI0, if_neg hS0, if_pos hU1]
    have hbranch2 : DeployService.configuration c { f with Path := "" }
        (n :: rest) w = DeployService.configuration c f (n :: rest) w := by
      rw [hbranch]
      unfold DeployService.configuration
      rw [if_neg hI0, if_neg hS0, if_pos hU1]
      rfl
    refine ⟨?_, hbranch2.symm, ?_, ?_, ?_⟩
    · intro cfg w1 h
      rw [hbranch] at h
      rcases h1 : getterBuildTemplate c f w with ⟨_ | e, wa⟩
      · simp only [h1, Prod.mk.injEq, Except.ok.injEq] at h
        exact h.1.symm
      · simp [h1] at h
    · unfold DeployService
      rw [hbranch2]
      rfl
    · intro ha
      rw [hbranch]
      rcases h1 : getterBuildTemplate c f w with ⟨r1, wa⟩
      rw [h1] at ha
      simp only at ha
      subst ha
      rfl
    · rw [hbranch]
      obtain ⟨i1, ht1, hp1⟩ := getterBuildTemplate_targets c f w
      rcases h1 : getterBuildTemplate c f w with ⟨_ | e, wa⟩
      · rw [h1] at ht1
        exact ⟨i1, ht1, hp1⟩
      · rw [h1] at ht1
        exact ⟨i1, ht1, hp1⟩
  · intro hI hS hU hP
    have hI0 := length_eq_zero_of_eq_empty _ hI
    have hS0 := length_eq_zero_of_eq_empty _ hS
    have hU0 := length_eq_zero_of_eq_empty _ hU
    have hP1 := (length_ne_zero_iff f.Path).mpr hP
    constructor
    · intro cfg w1 h
      unfold DeployService.configuration at h
      rw [if_neg hI0, if_neg hS0, if_neg hU0, if_pos hP1] at h
      cases hr : c.ReadFile f.Path with
      | error e =>
        simp [hr] at h
      | ok body =>
        simp only [hr] at h
        rcases h1 : createConfigMap c f (GoMap.assign [] (arg0 (n :: rest)) body)
            (w.log (.readFile f.Path)) with ⟨_ | e, wa⟩
        · simp only [h1] at h
          rcases h2 : kanikoBuildTemplate c f wa with ⟨_ | e, wb⟩
          · simp only [h2, Prod.mk.injEq, Except.ok.injEq] at h
            exact h.1.symm
          · simp [h2] at h
        · simp [h1] at h
    · intro body hread ha hb
      have hdata : GoMap.assign [] (arg0 (n :: rest)) body = [(n, body)] := rfl
      unfold DeployService.configuration
      rw [if_neg hI0, if_neg hS0, if_neg hU0, if_pos hP1]
      simp only [hread, hdata]
      rcases h1 : createConfigMap c f [(n, body)] (w.log (.readFile f.Path)) with ⟨r1, wa⟩
      rw [h1] at ha hb
      simp only at ha hb
      subst ha
      rcases h2 : kanikoBuildTemplate c f wa with ⟨r2, wb⟩
      rw [h2] at hb
      simp only at hb
      subst hb
      simp [h2]

/-- C1 on the in-memory cluster, with all four flags set, then without `Image`, then
without `Image` and `Source`, then with `Path` alone. -/
theorem DeployService_source_priority_witness :
    DeployService.configuration (memClient someFiles) allFlags ["foo"] emptyWorld =
        (.ok (fromImage allFlags ["foo"]), emptyWorld) ∧
    DeployService (memClient someFiles) { allFlags with Image := "" } {} ["foo"] emptyWorld =
        DeployService (memClient someFiles)
          { ({ allFlags with Image := "" } : Flags) with URL := "", Path := "" } {} ["foo"]
          emptyWorld ∧
    DeployService (memClient someFiles) { allFlags with Image := "", Source := "" } {} ["foo"]
        emptyWorld =
      DeployService (memClient someFiles)
        { ({ allFlags with Image := "", Source := "" } : Flags) with Path := "" } {} ["foo"]
        emptyWorld ∧
    (∀ cfg w1, DeployService.configuration (memClient someFiles) fileFlags ["foo"] emptyWorld =
        (.ok cfg, w1) → cfg = fromFile fileFlags ["foo"]) :=
  ⟨((DeployService_source_priority (memClient someFiles) allFlags {} "foo" [] emptyWorld).1
      (by decide)).1,
    ((DeployService_source_priority (memClient someFiles) { allFlags with Image := "" } {}
      "foo" [] emptyWorld).2.1 rfl (by decide)).2.2.1,
    ((DeployService_source_priority (memClient someFiles)
      { allFlags with Image := "", Source := "" } {} "foo" [] emptyWorld).2.2.1 rfl rfl
        (by decide)).2.2.1,
    ((DeployService_source_priority (memClient someFiles) fileFlags {} "foo" []
      emptyWorld).2.2.2 rfl rfl rfl (by decide)).1⟩

/-! ## Build templates -/

theorem memGet_cons_self {α : Type} (meta : α → ObjectMeta) (store : List α) (o : α) :
    memGet meta (o :: store) (meta o).Namespace (meta o).Name = .ok o := by
  simp [memGet, List.find?]

theorem memClient_create_then_get (files : List (String × String)) (k : List BuildTemplate)
    (ns : String) (bt obj : BuildTemplate) (k2 : List BuildTemplate)
    (h : (memClient files).BuildTemplatesCreate k ns bt = (.ok obj, k2)) :
    ∃ b, (memClient files).BuildTemplatesGet k2 ns bt.ObjectMeta.Name = .ok b := by
  simp only [memClient, memCreate] at h
  by_cases hns : bt.ObjectMeta.Namespace = ns
  · have hb : (bt.ObjectMeta.Namespace != ns) = false := by simpa using hns
    rw [hb] at h
    simp only [Bool.false_eq_true, if_false] at h
    cases hg : memGet BuildTemplate.ObjectMeta k ns bt.ObjectMeta.Name with
    | ok old => simp [hg] at h
    | error e =>
      simp only [hg, Prod.mk.injEq, Except.ok.injEq] at h
      refine ⟨bt.withResourceVersion "1", ?_⟩
      rw [← h.2, ← hns]
      exact memGet_cons_self BuildTemplate.ObjectMeta k (bt.withResourceVersion "1")
  · have hb : (bt.ObjectMeta.Namespace != ns) = true := by simpa using hns
    rw [hb] at h
    simp at h

/-- C8, as stated, fails: for a caller with read-only access (no `Create` succeeds, so every
successful `Create` is trivially followed by successful `Get`s) on a namespace without the
templates, two calls of `kanikoBuildTemplate` in sequence issue two `Create` calls and the
second call returns the error; the same for `getterBuildTemplate`. -/
theorem buildTemplate_twice_two_creates :
    (∀ k ns bt obj k2, (readOnlyClient []).BuildTemplatesCreate k ns bt = (.ok obj, k2) →
      ∃ b, (readOnlyClient []).BuildTemplatesGet k2 ns bt.ObjectMeta.Name = .ok b) ∧
    (readOnlyClient []).BuildTemplatesGet emptyWorld.bts "ns" "kaniko" = .error errNotFound ∧
    (readOnlyClient []).BuildTemplatesGet emptyWorld.bts "ns" "getandbuild" =
      .error errNotFound ∧
    (((kanikoBuildTemplate (readOnlyClient []) { Namespace := "ns" }
        (kanikoBuildTemplate (readOnlyClient []) { Namespace := "ns" }
          emptyWorld).2).2.trace.filter Call.isBuildTemplateCreate).length = 2 ∧
      (kanikoBuildTemplate (readOnlyClient []) { Namespace := "ns" }
        (kanikoBuildTemplate (readOnlyClient []) { Namespace := "ns" } emptyWorld).2).1 =
          some errForbidden) ∧
    (((getterBuildTemplate (readOnlyClient []) { Namespace := "ns" }
        (getterBuildTemplate (readOnlyClient []) { Namespace := "ns" }
          emptyWorld).2).2.trace.filter Call.isBuildTemplateCreate).length = 2 ∧
      (getterBuildTemplate (readOnlyClient []) { Namespace := "ns" }
        (getterBuildTemplate (readOnlyClient []) { Namespace := "ns" } emptyWorld).2).1 =
          some errForbidden) := by
  refine ⟨?_, rfl, rfl, ⟨by decide, by decide⟩, ⟨by decide, by decide⟩⟩
  intro k ns bt obj k2 h
  simp [readOnlyClient] at h

/-- C8, amended: over a store in which a successful `Create` of a BuildTemplate makes every
later `Get` of that name succeed, when the namespace lacks the template and the `Create` of
the first call succeeds, two calls of `kanikoBuildTemplate` (respectively
`getterBuildTemplate`) in sequence issue `Get`, `Create`, `Get`: exactly one `Create`; the
second call makes only the `Get`, returns nil and leaves the stores unchanged. -/
theorem buildTemplate_idempotent {κ β ς : Type} (c : Client κ β ς) (f : Flags)
    (w : World κ β ς)
    (hstore : ∀ k ns bt obj k2, c.BuildTemplatesCreate k ns bt = (.ok obj, k2) →
      ∃ b, c.BuildTemplatesGet k2 ns bt.ObjectMeta.Name = .ok b) :
    (∀ e obj k2, c.BuildTemplatesGet w.bts f.Namespace "kaniko" = .error e →
      IsNotFound e = true →
      c.BuildTemplatesCreate w.bts f.Namespace (kanikoTemplate f) = (.ok obj, k2) →
      (kanikoBuildTemplate c f w).1 = none ∧
      (kanikoBuildTemplate c f (kanikoBuildTemplate c f w).2).1 = none ∧
      (kanikoBuildTemplate c f (kanikoBuildTemplate c f w).2).2.trace =
        w.trace ++ [.btGet f.Namespace "kaniko", .btCreate f.Namespace (kanikoTemplate f),
          .btGet f.Namespace "kaniko"] ∧
      (kanikoBuildTemplate c f (kanikoBuildTemplate c f w).2).2 =
        (kanikoBuildTemplate c f w).2.log (.btGet f.Namespace "kaniko") ∧
      (kanikoBuildTemplate c f (kanikoBuildTemplate c f w).2).2.bts =
        (kanikoBuildTemplate c f w).2.bts) ∧
    (∀ e obj k2, c.BuildTemplatesGet w.bts f.Namespace "getandbuild" = .error e →
      IsNotFound e = true →
      c.BuildTemplatesCreate w.bts f.Namespace (getterTemplate f) = (.ok obj, k2) →
      (getterBuildTemplate c f w).1 = none ∧
      (getterBuildTemplate c f (getterBuildTemplate c f w).2).1 = none ∧
      (getterBuildTemplate c f (getterBuildTemplate c f w).2).2.trace =
        w.trace ++ [.btGet f.Namespace "getandbuild",
          .btCreate f.Namespace (getterTemplate f), .btGet f.Namespace "getandbuild"] ∧
      (getterBuildTemplate c f (getterBuildTemplate c f w).2).2 =
        (getterBuildTemplate c f w).2.log (.btGet f.Namespace "getandbuild") ∧
      (getterBuildTemplate c f (getterBuildTemplate c f w).2).2.bts =
        (getterBuildTemplate c f w).2.bts) := by
  constructor
  · intro e obj k2 hget hnf hcre
    obtain ⟨b, hb⟩ := hstore _ _ _ _ _ hcre
    have hname : (kanikoTemplate f).ObjectMeta.Name = "kaniko" := rfl
    rw [hname] at hb
    have h1 : kanikoBuildTemplate c f w =
        (none, { (w.log (.btGet f.Namespace "kaniko")).log
          (.btCreate f.Namespace (kanikoTemplate f)) with bts := k2 }) := by
      simp [kanikoBuildTemplate, hget, hnf, hcre, errOf]
    have h2 : kanikoBuildTemplate c f (kanikoBuildTemplate c f w).2 =
        (none, (kanikoBuildTemplate c f w).2.log (.btGet f.Namespace "kaniko")) := by
      rw [h1]
      simp [kanikoBuildTemplate, hb]
    refine ⟨by rw [h1], by rw [h2], ?_, by rw [h2], by rw [h2]; rfl⟩
    rw [h2, h1]
    simp [World.log]
  · intro e obj k2 hget hnf hcre
    obtain ⟨b, hb⟩ := hstore _ _ _ _ _ hcre
    have hname : (getterTemplate f).ObjectMeta.Name = "getandbuild" := rfl
    rw [hname] at hb
    have h1 : getterBuildTemplate c f w =
        (none, { (w.log (.btGet f.Namespace "getandbuild")).log
          (.btCreate f.Namespace (getterTemplate f)) with bts := k2 }) := by
      simp [getterBuildTemplate, hget, hnf, hcre, errOf]
    have h2 : getterBuildTemplate c f (getterBuildTemplate c f w).2 =
        (none, (getterBuildTemplate c f w).2.log (.btGet f.Namespace "getandbuild")) := by
      rw [h1]
      simp [getterBuildTemplate, hb]
    refine ⟨by rw [h1], by rw [h2], ?_, by rw [h2], by rw [h2]; rfl⟩
    rw [h2, h1]
    simp [World.log]

/-- C8, amended, on the in-memory cluster: two calls on the empty cluster. -/
theorem buildTemplate_idempotent_witness :
    (kanikoBuildTemplate (memClient []) { Namespace := "ns" }
        (kanikoBuildTemplate (memClient []) { Namespace := "ns" } emptyWorld).2).2.trace =
      emptyWorld.trace ++ [.btGet "ns" "kaniko", .btCreate "ns" (kanikoTemplate { Namespace := "ns" }),
        .btGet "ns" "kaniko"] ∧
    (getterBuildTemplate (memClient []) { Namespace := "ns" }
        (getterBuildTemplate (memClient []) { Namespace := "ns" } emptyWorld).2).2.trace =
      emptyWorld.trace ++ [.btGet "ns" "getandbuild",
        .btCreate "ns" (getterTemplate { Namespace := "ns" }), .btGet "ns" "getandbuild"] :=
  ⟨((buildTemplate_idempotent (memClient []) { Namespace := "ns" } emptyWorld
      (memClient_create_then_get [])).1 errNotFound
        ((kanikoTemplate { Namespace := "ns" }).withResourceVersion "1")
        [(kanikoTemplate { Namespace := "ns" }).withResourceVersion "1"] rfl rfl rfl).2.2.1,
    ((buildTemplate_idempotent (memClient []) { Namespace := "ns" } emptyWorld
      (memClient_create_then_get [])).2 errNotFound
        ((getterTemplate { Namespace := "ns" }).withResourceVersion "1")
        [(getterTemplate { Namespace := "ns" }).withResourceVersion "1"] rfl rfl rfl).2.2.1⟩

/-! ## The ConfigMap `dockerfile` -/

theorem kanikoBuildTemplate_frame {κ β ς : Type} (c : Client κ β ς) (f : Flags)
    (w : World κ β ς) :
    ∃ tail, (kanikoBuildTemplate c f w).2.trace =
        w.trace ++ Call.btGet f.Namespace "kaniko" :: tail ∧
      (∀ call ∈ tail, call.isConfigMap = false) ∧
      (kanikoBuildTemplate c f w).2.cms = w.cms := by
  unfold kanikoBuildTemplate
  cases hget : c.BuildTemplatesGet w.bts f.Namespace "kaniko" with
  | ok b => exact ⟨[], by simp [World.log], by simp, rfl⟩
  | error e =>
    by_cases hnf : IsNotFound e = true
    · refine ⟨[.btCreate f.Namespace (kanikoTemplate f)], by simp [hnf, World.log], ?_, ?_⟩
      · intro call hc
        simp only [List.mem_singleton] at hc
        subst hc
        rfl
      · simp [hnf, World.log]
    · exact ⟨[], by simp [hnf, World.log], by simp, by simp [hnf, World.log]⟩

theorem getterBuildTemplate_frame {κ β ς : Type} (c : Client κ β ς) (f : Flags)
    (w : World κ β ς) :
    ∃ tail, (getterBuildTemplate c f w).2.trace =
        w.trace ++ Call.btGet f.Namespace "getandbuild" :: tail ∧
      (∀ call ∈ tail, call.isConfigMap = false) ∧
      (getterBuildTemplate c f w).2.cms = w.cms := by
  unfold getterBuildTemplate
  cases hget : c.BuildTemplatesGet w.bts f.Namespace "getandbuild" with
  | ok b => exact ⟨[], by simp [World.log], by simp, rfl⟩
  | error e =>
    by_cases hnf : IsNotFound e = true
    · refine ⟨[.btCreate f.Namespace (getterTemplate f)], by simp [hnf, World.log], ?_, ?_⟩
      · intro call hc
        simp only [List.mem_singleton] at hc
        subst hc
        rfl
      · simp [hnf, World.log]
    · exact ⟨[], by simp [hnf, World.log], by simp, by simp [hnf, World.log]⟩

theorem reconcile_frame {κ β ς : Type} (c : Client κ β ς) (f : Flags) (t : Clock)
    (args : List String) (w w1 : World κ β ς) (r : Except Err ConfigurationSpec)
    (h : DeployService.configuration c f args w = (r, w1)) :
    ∃ tail, (DeployService c f t args w).2.trace = w1.trace ++ tail ∧
      (∀ call ∈ tail, call.isConfigMap = false) ∧
      (DeployService c f t args w).2.cms = w1.cms := by
  unfold DeployService
  rw [h]
  cases r with
  | error e => exact ⟨[], by simp, by simp, rfl⟩
  | ok cfg =>
    cases hget : c.ServicesGet w1.svcs f.Namespace (arg0 args) with
    | ok service =>
      refine ⟨[.svcGet f.Namespace (arg0 args),
        .svcUpdate f.Namespace ((DeployService.service f t args cfg).withResourceVersion
          service.ObjectMeta.ResourceVersion)], by simp [hget, World.log], ?_, by simp [hget, World.log]⟩
      intro call hc
      simp only [List.mem_cons, List.mem_singleton, List.not_mem_nil, or_false] at hc
      rcases hc with hc | hc <;> subst hc <;> rfl
    | error e =>
      by_cases hnf : IsNotFound e = true
      · refine ⟨[.svcGet f.Namespace (arg0 args),
          .svcCreate f.Namespace (DeployService.service f t args cfg)],
          by simp [hget, hnf, World.log], ?_, by simp [hget, hnf, World.log]⟩
        intro call hc
        simp only [List.mem_cons, List.mem_singleton, List.not_mem_nil, or_false] at hc
        rcases hc with hc | hc <;> subst hc <;> rfl
      · refine ⟨[.svcGet f.Namespace (arg0 args)], by simp [hget, hnf, World.log], ?_,
          by simp [hget, hnf, World.log]⟩
        intro call hc
        simp only [List.mem_singleton] at hc
        subst hc
        rfl

theorem createConfigMap_found_eq {κ β ς : Type} (c : Client κ β ς) (f : Flags)
    (data : GoMap) (w : World κ β ς) (cm : ConfigMap)
    (h : c.ConfigMapsGet w.cms f.Namespace "dockerfile" = .ok cm) :
    createConfigMap c f data w =
      (errOf (c.ConfigMapsUpdate w.cms f.Namespace
          ((newmap f data).withResourceVersion cm.ObjectMeta.ResourceVersion)).1,
        { cms := (c.ConfigMapsUpdate w.cms f.Namespace
            ((newmap f data).withResourceVersion cm.ObjectMeta.ResourceVersion)).2
          bts := w.bts
          svcs := w.svcs
          trace := w.trace ++ [.cmGet f.Namespace "dockerfile",
            .cmUpdate f.Namespace
              ((newmap f data).withResourceVersion cm.ObjectMeta.ResourceVersion)] }) := by
  simp [createConfigMap, h, World.log]

theorem createConfigMap_notFound_eq {κ β ς : Type} (c : Client κ β ς) (f : Flags)
    (data : GoMap) (w : World κ β ς) (e : Err)
    (h : c.ConfigMapsGet w.cms f.Namespace "dockerfile" = .error e)
    (hnf : IsNotFound e = true) :
    createConfigMap c f data w =
      (errOf (c.ConfigMapsCreate w.cms f.Namespace (newmap f data)).1,
        { cms := (c.ConfigMapsCreate w.cms f.Namespace (newmap f data)).2
          bts := w.bts
          svcs := w.svcs
          trace := w.trace ++ [.cmGet f.Namespace "dockerfile",
            .cmCreate f.Namespace (newmap f data)] }) := by
  simp [createConfigMap, h, hnf, World.log]

theorem DeployService_after_configMap {κ β ς : Type} (c : Client κ β ς) (f : Flags)
    (t : Clock) (args : List String) (w w0 : World κ β ς) (data : GoMap)
    (cfg : ConfigurationSpec)
    (hconf : DeployService.configuration c f args w =
      match createConfigMap c f data w0 with
      | (some err, w1) => (.error err, w1)
      | (none, w1) =>
        match kanikoBuildTemplate c f w1 with
        | (some err, w2) => (.error err, w2)
        | (none, w2) => (.ok cfg, w2)) :
    ∃ tail, (DeployService c f t args w).2.trace =
        (createConfigMap c f data w0).2.trace ++ tail ∧
      (∀ call ∈ tail, call.isConfigMap = false) ∧
      (∀ e, (createConfigMap c f data w0).1 = some e →
        tail = [] ∧ DeployService c f t args w = (some e, (createConfigMap c f data w0).2)) ∧
      ((createConfigMap c f data w0).1 = none →
        tail.head? = some (.btGet f.Namespace "kaniko")) ∧
      (DeployService c f t args w).2.cms = (createConfigMap c f data w0).2.cms := by
  rcases h1 : createConfigMap c f data w0 with ⟨_ | e, wa⟩
  · simp only [h1] at hconf
    obtain ⟨tk, htk, hnk, hck⟩ := kanikoBuildTemplate_frame c f wa
    rcases h2 : kanikoBuildTemplate c f wa with ⟨r2, wb⟩
    rw [h2] at htk hck
    have hc2 : ∃ r, DeployService.configuration c f args w = (r, wb) := by
      cases r2 with
      | none => exact ⟨_, by simpa [h2] using hconf⟩
      | some e => exact ⟨_, by simpa [h2] using hconf⟩
    obtain ⟨r, hr⟩ := hc2
    obtain ⟨tr, htr, hnr, hcr⟩ := reconcile_frame c f t args w wb r hr
    refine ⟨Call.btGet f.Namespace "kaniko" :: tk ++ tr, ?_, ?_, ?_, fun _ => rfl, ?_⟩
    · rw [htr]
      simp only at htk
      rw [htk]
      simp
    · intro call hc
      simp only [List.cons_append, List.mem_cons, List.mem_append] at hc
      rcases hc with hc | hc | hc
      · subst hc; rfl
      · exact hnk call hc
      · exact hnr call hc
    · intro e he
      cases he
    · rw [hcr]
      exact hck
  · simp only [h1] at hconf
    have hD : DeployService c f t args w = (some e, wa) := by
      simp [DeployService, hconf]
    refine ⟨[], ?_, by simp, ?_, ?_, ?_⟩
    · rw [hD]
      simp
    · intro e2 he
      simp only [Option.some.injEq] at he
      subst he
      exact ⟨rfl, hD⟩
    · intro he
      cases he
    · rw [hD]

theorem DeployService_prerequisite_chain {κ β ς : Type} (c : Client κ β ς) (f : Flags)
    (t : Clock) (args : List String) (w w0 : World κ β ς) (data : GoMap)
    (cfg : ConfigurationSpec)
    (hconf : DeployService.configuration c f args w =
      match createConfigMap c f data w0 with
      | (some err, w1) => (.error err, w1)
      | (none, w1) =>
        match kanikoBuildTemplate c f w1 with
        | (some err, w2) => (.error err, w2)
        | (none, w2) => (.ok cfg, w2)) :
    ∀ wcm, createConfigMap c f data w0 = (none, wcm) →
      (∀ e w2, kanikoBuildTemplate c f wcm = (some e, w2) →
        DeployService c f t args w = (some e, w2)) ∧
      (∀ w2, kanikoBuildTemplate c f wcm = (none, w2) →
        DeployService.configuration c f args w = (.ok cfg, w2)) := by
  intro wcm h1
  simp only [h1] at hconf
  constructor
  · intro e w2 h2
    simp only [h2] at hconf
    simp [DeployService, hconf]
  · intro w2 h2
    simp only [h2] at hconf
    exact hconf

/-- C10, as stated, fails: a git deployment on a cluster holding the ConfigMap `dockerfile`
issues a `Get` and an `Update` of it, with no data, and the stored ConfigMap is changed. -/
theorem DeployService_git_writes_configMap :
    (DeployService (memClient []) gitFlags {} ["bar"] deployedWorld).2.trace.filter
        Call.isConfigMap =
      [.cmGet "ns" "dockerfile",
        .cmUpdate "ns" ((newmap gitFlags []).withResourceVersion "1")] ∧
    (DeployService (memClient []) gitFlags {} ["bar"] deployedWorld).2.cms ≠
      deployedWorld.cms := by
  decide

theorem DeployService_configMap_path {κ β ς : Type} (c : Client κ β ς) (f : Flags)
    (t : Clock) (args : List String) (w w0 : World κ β ς) (data : GoMap)
    (cfg : ConfigurationSpec)
    (hconf : DeployService.configuration c f args w =
      match createConfigMap c f data w0 with
      | (some err, w1) => (.error err, w1)
      | (none, w1) =>
        match kanikoBuildTemplate c f w1 with
        | (some err, w2) => (.error err, w2)
        | (none, w2) => (.ok cfg, w2)) :
    (∀ e wcm, createConfigMap c f data w0 = (some e, wcm) →
      DeployService c f t args w = (some e, wcm)) ∧
    (∀ wcm, createConfigMap c f data w0 = (none, wcm) →
      (∀ e w2, kanikoBuildTemplate c f wcm = (some e, w2) →
        DeployService c f t args w = (some e, w2)) ∧
      (∀ w2, kanikoBuildTemplate c f wcm = (none, w2) →
        DeployService.configuration c f args w = (.ok cfg, w2))) ∧
    (∀ cm, c.ConfigMapsGet w0.cms f.Namespace "dockerfile" = .ok cm →
      ∃ tail, (DeployService c f t args w).2.trace =
          w0.trace ++ [.cmGet f.Namespace "dockerfile",
            .cmUpdate f.Namespace ((newmap f data).withResourceVersion
              cm.ObjectMeta.ResourceVersion)] ++ tail ∧
        (∀ call ∈ tail, call.isConfigMap = false) ∧
        (∀ e, (c.ConfigMapsUpdate w0.cms f.Namespace ((newmap f data).withResourceVersion
            cm.ObjectMeta.ResourceVersion)).1 = .error e →
          tail = [] ∧ (DeployService c f t args w).1 = some e) ∧
        (∀ o, (c.ConfigMapsUpdate w0.cms f.Namespace ((newmap f data).withResourceVersion
            cm.ObjectMeta.ResourceVersion)).1 = .ok o →
          tail.head? = some (.btGet f.Namespace "kaniko")) ∧
        (DeployService c f t args w).2.cms =
          (c.ConfigMapsUpdate w0.cms f.Namespace ((newmap f data).withResourceVersion
            cm.ObjectMeta.ResourceVersion)).2) ∧
    (∀ e, c.ConfigMapsGet w0.cms f.Namespace "dockerfile" = .error e →
      IsNotFound e = true →
      ∃ tail, (DeployService c f t args w).2.trace =
          w0.trace ++ [.cmGet f.Namespace "dockerfile",
            .cmCreate f.Namespace (newmap f data)] ++ tail ∧
        (∀ call ∈ tail, call.isConfigMap = false) ∧
        (∀ e2, (c.ConfigMapsCreate w0.cms f.Namespace (newmap f data)).1 = .error e2 →
          tail = [] ∧ (DeployService c f t args w).1 = some e2) ∧
        (∀ o, (c.ConfigMapsCreate w0.cms f.Namespace (newmap f data)).1 = .ok o →
          tail.head? = some (.btGet f.Namespace "kaniko")) ∧
        (DeployService c f t args w).2.cms =
          (c.ConfigMapsCreate w0.cms f.Namespace (newmap f data)).2) := by
  obtain ⟨tail, htr, hno, herr, hok, hcms⟩ :=
    DeployService_after_configMap c f t args w w0 data cfg hconf
  refine ⟨?_, DeployService_prerequisite_chain c f t args w w0 data cfg hconf, ?_, ?_⟩
  · intro e wcm h1
    have := (herr e (by rw [h1])).2
    rw [h1] at this
    exact this
  · intro cm hget
    have heq := createConfigMap_found_eq c f data w0 cm hget
    rw [heq] at htr herr hok hcms
    refine ⟨tail, htr, hno, ?_, ?_, hcms⟩
    · intro e he
      have h := herr e (by simp [he, errOf])
      exact ⟨h.1, by rw [h.2]⟩
    · intro o ho
      exact hok (by simp [ho, errOf])
  · intro e hget hnf
    have heq := createConfigMap_notFound_eq c f data w0 e hget hnf
    rw [heq] at htr herr hok hcms
    refine ⟨tail, htr, hno, ?_, ?_, hcms⟩
    · intro e2 he
      have h := herr e2 (by simp [he, errOf])
      exact ⟨h.1, by rw [h.2]⟩
    · intro o ho
      exact hok (by simp [ho, errOf])

/-- C10, amended: the ConfigMap `dockerfile` is written on the file and git paths.
`createConfigMap` is a create-or-update through the client: it gets the ConfigMap and applies
the client's `Update` (carrying the fetched resource version) or, when it is not found, the
client's `Create`, returning the error of that write and the store it left; any other `Get`
error is returned after the `Get` alone.  `kanikoBuildTemplate` ensures the `kaniko`
template in the same way (`Get`; on NotFound the client's `Create`; nothing when it exists).
For a file deployment `DeployService` reads the file, runs `createConfigMap` with data
mapping the service name to the contents of the file, returns its error if it fails, and
only after a successful write runs `kanikoBuildTemplate`; for a git deployment it does the
same with no data and without the read.  In both, the ConfigMap store after `DeployService`
is the one the write left, no other ConfigMap call follows, a failed write is the last call,
and a successful one is followed by the `Get` of the `kaniko` template.  For image and URL
deployments `DeployService` issues no ConfigMap call and the ConfigMap store is left
unchanged. -/
theorem DeployService_configMap {κ β ς : Type} (c : Client κ β ς) (f : Flags) (t : Clock)
    (n : String) (rest : List String) (w : World κ β ς) :
    (∀ (data : GoMap) (w0 : World κ β ς),
      (∀ cm, c.ConfigMapsGet w0.cms f.Namespace "dockerfile" = .ok cm →
        createConfigMap c f data w0 =
          (errOf (c.ConfigMapsUpdate w0.cms f.Namespace
              ((newmap f data).withResourceVersion cm.ObjectMeta.ResourceVersion)).1,
            { cms := (c.ConfigMapsUpdate w0.cms f.Namespace
                ((newmap f data).withResourceVersion cm.ObjectMeta.ResourceVersion)).2
              bts := w0.bts
              svcs := w0.svcs
              trace := w0.trace ++ [.cmGet f.Namespace "dockerfile",
                .cmUpdate f.Namespace
                  ((newmap f data).withResourceVersion cm.ObjectMeta.ResourceVersion)] })) ∧
      (∀ e, c.ConfigMapsGet w0.cms f.Namespace "dockerfile" = .error e →
        IsNotFound e = true →
        createConfigMap c f data w0 =
          (errOf (c.ConfigMapsCreate w0.cms f.Namespace (newmap f data)).1,
            { cms := (c.ConfigMapsCreate w0.cms f.Namespace (newmap f data)).2
              bts := w0.bts
              svcs := w0.svcs
              trace := w0.trace ++ [.cmGet f.Namespace "dockerfile",
                .cmCreate f.Namespace (newmap f data)] })) ∧
      (∀ e, c.ConfigMapsGet w0.cms f.Namespace "dockerfile" = .error e →
        IsNotFound e = false →
        createConfigMap c f data w0 = (some e, w0.log (.cmGet f.Namespace "dockerfile")))) ∧
    (∀ (w0 : World κ β ς),
      (∀ b, c.BuildTemplatesGet w0.bts f.Namespace "kaniko" = .ok b →
        kanikoBuildTemplate c f w0 = (none, w0.log (.btGet f.Namespace "kaniko"))) ∧
      (∀ e, c.BuildTemplatesGet w0.bts f.Namespace "kaniko" = .error e →
        IsNotFound e = true →
        kanikoBuildTemplate c f w0 =
          (errOf (c.BuildTemplatesCreate w0.bts f.Namespace (kanikoTemplate f)).1,
            { cms := w0.cms
              bts := (c.BuildTemplatesCreate w0.bts f.Namespace (kanikoTemplate f)).2
              svcs := w0.svcs
              trace := w0.trace ++ [.btGet f.Namespace "kaniko",
                .btCreate f.Namespace (kanikoTemplate f)] })) ∧
      (∀ e, c.BuildTemplatesGet w0.bts f.Namespace "kaniko" = .error e →
        IsNotFound e = false →
        kanikoBuildTemplate c f w0 = (some e, w0.log (.btGet f.Namespace "kaniko")))) ∧
    (f.Image = "" → f.Source = "" → f.URL = "" → f.Path ≠ "" →
      ∀ body, c.ReadFile f.Path = .ok body →
        (∀ e wcm, createConfigMap c f [(n, body)] (w.log (.readFile f.Path)) = (some e, wcm) →
          DeployService c f t (n :: rest) w = (some e, wcm)) ∧
        (∀ wcm, createConfigMap c f [(n, body)] (w.log (.readFile f.Path)) = (none, wcm) →
          (∀ e w2, kanikoBuildTemplate c f wcm = (some e, w2) →
            DeployService c f t (n :: rest) w = (some e, w2)) ∧
          (∀ w2, kanikoBuildTemplate c f wcm = (none, w2) →
            DeployService.configuration c f (n :: rest) w =
              (.ok (fromFile f (n :: rest)), w2))) ∧
        (∀ cm, c.ConfigMapsGet w.cms f.Namespace "dockerfile" = .ok cm →
          ∃ tail, (DeployService c f t (n :: rest) w).2.trace =
              w.trace ++ [.readFile f.Path, .cmGet f.Namespace "dockerfile",
                .cmUpdate f.Namespace ((newmap f [(n, body)]).withResourceVersion
                  cm.ObjectMeta.ResourceVersion)] ++ tail ∧
            (∀ call ∈ tail, call.isConfigMap = false) ∧
            (∀ e, (c.ConfigMapsUpdate w.cms f.Namespace
                ((newmap f [(n, body)]).withResourceVersion
                  cm.ObjectMeta.ResourceVersion)).1 = .error e →
              tail = [] ∧ (DeployService c f t (n :: rest) w).1 = some e) ∧
            (∀ o, (c.ConfigMapsUpdate w.cms f.Namespace
                ((newmap f [(n, body)]).withResourceVersion
                  cm.ObjectMeta.ResourceVersion)).1 = .ok o →
              tail.head? = some (.btGet f.Namespace "kaniko")) ∧
            (DeployService c f t (n :: rest) w).2.cms =
              (c.ConfigMapsUpdate w.cms f.Namespace
                ((newmap f [(n, body)]).withResourceVersion
                  cm.ObjectMeta.ResourceVersion)).2) ∧
        (∀ e, c.ConfigMapsGet w.cms f.Namespace "dockerfile" = .error e →
          IsNotFound e = true →
          ∃ tail, (DeployService c f t (n :: rest) w).2.trace =
              w.trace ++ [.readFile f.Path, .cmGet f.Namespace "dockerfile",
                .cmCreate f.Namespace (newmap f [(n, body)])] ++ tail ∧
            (∀ call ∈ tail, call.isConfigMap = false) ∧
            (∀ e2, (c.ConfigMapsCreate w.cms f.Namespace (newmap f [(n, body)])).1 =
                .error e2 →
              tail = [] ∧ (DeployService c f t (n :: rest) w).1 = some e2) ∧
            (∀ o, (c.ConfigMapsCreate w.cms f.Namespace (newmap f [(n, body)])).1 = .ok o →
              tail.head? = some (.btGet f.Namespace "kaniko")) ∧
            (DeployService c f t (n :: rest) w).2.cms =
              (c.ConfigMapsCreate w.cms f.Namespace (newmap f [(n, body)])).2)) ∧
    (f.Image = "" → f.Source ≠ "" →
      (∀ e wcm, createConfigMap c f [] w = (some e, wcm) →
        DeployService c f t (n :: rest) w = (some e, wcm)) ∧
      (∀ wcm, createConfigMap c f [] w = (none, wcm) →
        (∀ e w2, kanikoBuildTemplate c f wcm = (some e, w2) →
          DeployService c f t (n :: rest) w = (some e, w2)) ∧
        (∀ w2, kanikoBuildTemplate c f wcm = (none, w2) →
          DeployService.configuration c f (n :: rest) w =
            (.ok (fromSource f (n :: rest)), w2))) ∧
      (∀ cm, c.ConfigMapsGet w.cms f.Namespace "dockerfile" = .ok cm →
        ∃ tail, (DeployService c f t (n :: rest) w).2.trace =
            w.trace ++ [.cmGet f.Namespace "dockerfile",
              .cmUpdate f.Namespace ((newmap f []).withResourceVersion
                cm.ObjectMeta.ResourceVersion)] ++ tail ∧
          (∀ call ∈ tail, call.isConfigMap = false) ∧
          (∀ e, (c.ConfigMapsUpdate w.cms f.Namespace ((newmap f []).withResourceVersion
              cm.ObjectMeta.ResourceVersion)).1 = .error e →
            tail = [] ∧ (DeployService c f t (n :: rest) w).1 = some e) ∧
          (∀ o, (c.ConfigMapsUpdate w.cms f.Namespace ((newmap f []).withResourceVersion
              cm.ObjectMeta.ResourceVersion)).1 = .ok o →
            tail.head? = some (.btGet f.Namespace "kaniko")) ∧
          (DeployService c f t (n :: rest) w).2.cms =
            (c.ConfigMapsUpdate w.cms f.Namespace ((newmap f []).withResourceVersion
              cm.ObjectMeta.ResourceVersion)).2) ∧
      (∀ e, c.ConfigMapsGet w.cms f.Namespace "dockerfile" = .error e →
        IsNotFound e = true →
        ∃ tail, (DeployService c f t (n :: rest) w).2.trace =
            w.trace ++ [.cmGet f.Namespace "dockerfile",
              .cmCreate f.Namespace (newmap f [])] ++ tail ∧
          (∀ call ∈ tail, call.isConfigMap = false) ∧
          (∀ e2, (c.ConfigMapsCreate w.cms f.Namespace (newmap f [])).1 = .error e2 →
            tail = [] ∧ (DeployService c f t (n :: rest) w).1 = some e2) ∧
          (∀ o, (c.ConfigMapsCreate w.cms f.Namespace (newmap f [])).1 = .ok o →
            tail.head? = some (.btGet f.Namespace "kaniko")) ∧
          (DeployService c f t (n :: rest) w).2.cms =
            (c.ConfigMapsCreate w.cms f.Namespace (newmap f [])).2)) ∧
    ((f.Image ≠ "" ∨ (f.Source = "" ∧ f.URL ≠ "")) →
      ∃ issued, (DeployService c f t (n :: rest) w).2.trace = w.trace ++ issued ∧
        (∀ call ∈ issued, call.isConfigMap = false) ∧
        (DeployService c f t (n :: rest) w).2.cms = w.cms) := by
  refine ⟨?_, ?_, ?_, ?_, ?_⟩
  · intro data w0
    refine ⟨?_, ?_, ?_⟩
    · intro cm h
      simp [createConfigMap, h, World.log]
    · intro e h hnf
      simp [createConfigMap, h, hnf, World.log]
    · intro e h hnf
      simp [createConfigMap, h, hnf]
  · intro w0
    refine ⟨?_, ?_, ?_⟩
    · intro b h
      simp [kanikoBuildTemplate, h]
    · intro e h hnf
      simp [kanikoBuildTemplate, h, hnf, World.log]
    · intro e h hnf
      simp [kanikoBuildTemplate, h, hnf]
  · intro hI hS hU hP body hread
    have hI0 := length_eq_zero_of_eq_empty _ hI
    have hS0 := length_eq_zero_of_eq_empty _ hS
    have hU0 := length_eq_zero_of_eq_empty _ hU
    have hP1 := (length_ne_zero_iff f.Path).mpr hP
    have hconf : DeployService.configuration c f (n :: rest) w =
        match createConfigMap c f [(n, body)] (w.log (.readFile f.Path)) with
        | (some err, w1) => (.error err, w1)
        | (none, w1) =>
          match kanikoBuildTemplate c f w1 with
          | (some err, w2) => (.error err, w2)
          | (none, w2) => (.ok (fromFile f (n :: rest)), w2) := by
      unfold DeployService.configuration
      rw [if_neg hI0, if_neg hS0, if_neg hU0, if_pos hP1]
      simp only [hread]
      rfl
    obtain ⟨h1, h2, h3, h4⟩ :=
      DeployService_configMap_path c f t (n :: rest) w _ _ _ hconf
    refine ⟨h1, h2, ?_, ?_⟩
    · intro cm hget
      obtain ⟨tail, htr, hrest⟩ := h3 cm hget
      refine ⟨tail, ?_, hrest⟩
      rw [htr]
      simp [World.log]
    · intro e hget hnf
      obtain ⟨tail, htr, hrest⟩ := h4 e hget hnf
      refine ⟨tail, ?_, hrest⟩
      rw [htr]
      simp [World.log]
  · intro hI hS
    have hI0 := length_eq_zero_of_eq_empty _ hI
    have hS1 := (length_ne_zero_iff f.Source).mpr hS
    have hconf : DeployService.configuration c f (n :: rest) w =
        match createConfigMap c f [] w with
        | (some err, w1) => (.error err, w1)
        | (none, w1) =>
          match kanikoBuildTemplate c f w1 with
          | (some err, w2) => (.error err, w2)
          | (none, w2) => (.ok (fromSource f (n :: rest)), w2) := by
      unfold DeployService.configuration
      rw [if_neg hI0, if_pos hS1]
    exact DeployService_configMap_path c f t (n :: rest) w _ _ _ hconf
  · rintro (hI | ⟨hS, hU⟩)
    · have hI1 := (length_ne_zero_iff f.Image).mpr hI
      have hconf : DeployService.configuration c f (n :: rest) w =
          (.ok (fromImage f (n :: rest)), w) := by
        simp [DeployService.configuration, hI1]
      exact reconcile_frame c f t (n :: rest) w w _ hconf
    · by_cases hI : f.Image = ""
      · have hI0 := length_eq_zero_of_eq_empty _ hI
        have hS0 := length_eq_zero_of_eq_empty _ hS
        have hU1 := (length_ne_zero_iff f.URL).mpr hU
        have hconf : ∃ r, DeployService.configuration c f (n :: rest) w =
            (r, (getterBuildTemplate c f w).2) := by
          unfold DeployService.configuration
          rw [if_neg hI0, if_neg hS0, if_pos hU1]
          rcases h1 : getterBuildTemplate c f w with ⟨_ | e, wa⟩
          · exact ⟨_, rfl⟩
          · exact ⟨_, rfl⟩
        obtain ⟨r, hr⟩ := hconf
        obtain ⟨tg, htg, hng, hcg⟩ := getterBuildTemplate_frame c f w
        obtain ⟨tr, htr, hnr, hcr⟩ := reconcile_frame c f t (n :: rest) w _ r hr
        refine ⟨Call.btGet f.Namespace "getandbuild" :: tg ++ tr, ?_, ?_, ?_⟩
        · rw [htr, htg]
          simp
        · intro call hc
          simp only [List.cons_append, List.mem_cons, List.mem_append] at hc
          rcases hc with hc | hc | hc
          · subst hc; rfl
          · exact hng call hc
          · exact hnr call hc
        · rw [hcr, hcg]
      · have hI1 := (length_ne_zero_iff f.Image).mpr hI
        have hconf : DeployService.configuration c f (n :: rest) w =
            (.ok (fromImage f (n :: rest)), w) := by
          simp [DeployService.configuration, hI1]
        exact reconcile_frame c f t (n :: rest) w w _ hconf

/-- C10, amended, on the in-memory cluster: a file deployment on the empty cluster stores the
ConfigMap with the file under the key `foo` and goes on to the `kaniko` check; a git
deployment where the ConfigMap exists replaces it by one with no data; a file deployment by
a caller with read-only access stops at the refused `Create`; `kanikoBuildTemplate` on the
empty cluster stores the template; an image deployment and a URL deployment make no ConfigMap
call. -/
theorem DeployService_configMap_witness :
    (∃ tail, (DeployService (memClient someFiles) fileFlags {} ["foo"] emptyWorld).2.trace =
        emptyWorld.trace ++ [.readFile "Dockerfile", .cmGet "ns" "dockerfile",
          .cmCreate "ns" (newmap fileFlags [("foo", "FROM scratch")])] ++ tail ∧
      (∀ call ∈ tail, call.isConfigMap = false) ∧
      tail.head? = some (.btGet "ns" "kaniko") ∧
      (DeployService (memClient someFiles) fileFlags {} ["foo"] emptyWorld).2.cms =
        [(newmap fileFlags [("foo", "FROM scratch")]).withResourceVersion "1"]) ∧
    (∃ tail, (DeployService (memClient someFiles) gitFlags {} ["bar"] deployedWorld).2.trace =
        deployedWorld.trace ++ [.cmGet "ns" "dockerfile",
          .cmUpdate "ns" ((newmap gitFlags []).withResourceVersion "1")] ++ tail ∧
      (∀ call ∈ tail, call.isConfigMap = false) ∧
      tail.head? = some (.btGet "ns" "kaniko") ∧
      (DeployService (memClient someFiles) gitFlags {} ["bar"] deployedWorld).2.cms =
        [(newmap gitFlags []).withResourceVersion "11"]) ∧
    DeployService (readOnlyClient someFiles) fileFlags {} ["foo"] emptyWorld =
      (some errForbidden,
        { cms := []
          bts := []
          svcs := []
          trace := [.readFile "Dockerfile", .cmGet "ns" "dockerfile",
            .cmCreate "ns" (newmap fileFlags [("foo", "FROM scratch")])] }) ∧
    kanikoBuildTemplate (memClient someFiles) gitFlags emptyWorld =
      (none,
        { cms := []
          bts := [(kanikoTemplate gitFlags).withResourceVersion "1"]
          svcs := []
          trace := [.btGet "ns" "kaniko", .btCreate "ns" (kanikoTemplate gitFlags)] }) ∧
    (∃ issued, (DeployService (memClient someFiles) imageFlags {} ["foo"] deployedWorld).2.trace =
        deployedWorld.trace ++ issued ∧
      (∀ call ∈ issued, call.isConfigMap = false) ∧
      (DeployService (memClient someFiles) imageFlags {} ["foo"] deployedWorld).2.cms =
        deployedWorld.cms) ∧
    (∃ issued, (DeployService (memClient someFiles) urlFlags {} ["foo"] deployedWorld).2.trace =
        deployedWorld.trace ++ issued ∧
      (∀ call ∈ issued, call.isConfigMap = false) ∧
      (DeployService (memClient someFiles) urlFlags {} ["foo"] deployedWorld).2.cms =
        deployedWorld.cms) :=
  ⟨match ((DeployService_configMap (memClient someFiles) fileFlags {} "foo" []
        emptyWorld).2.2.1 rfl rfl rfl (by decide) "FROM scratch" rfl).2.2.2
          errNotFound rfl rfl with
    | ⟨tail, htr, hno, _, hok, hcms⟩ => ⟨tail, htr, hno, hok _ rfl, hcms⟩,
    match ((DeployService_configMap (memClient someFiles) gitFlags {} "bar" []
        deployedWorld).2.2.2.1 rfl (by decide)).2.2.1
          { TypeMeta := { Kind := "ConfigMap", APIVersion := "v1" }
            ObjectMeta := { Name := "dockerfile", Namespace := "ns", ResourceVersion := "1" }
            Data := [("foo", "FROM scratch")] } rfl with
    | ⟨tail, htr, hno, _, hok, hcms⟩ => ⟨tail, htr, hno, hok _ rfl, hcms⟩,
    ((DeployService_configMap (readOnlyClient someFiles) fileFlags {} "foo" []
        emptyWorld).2.2.1 rfl rfl rfl (by decide) "FROM scratch" rfl).1 errForbidden _ rfl,
    ((DeployService_configMap (memClient someFiles) gitFlags {} "bar" []
        emptyWorld).2.1 emptyWorld).2.1 errNotFound rfl rfl,
    (DeployService_configMap (memClient someFiles) imageFlags {} "foo" []
        deployedWorld).2.2.2.2 (Or.inl (by decide)),
    (DeployService_configMap (memClient someFiles) urlFlags {} "foo" []
        deployedWorld).2.2.2.2 (Or.inr ⟨rfl, by decide⟩)⟩

end Deploy
